import Mathlib

/-!
# Verification of the Auditly crawl/audit/report pipeline

Shallow embedding of the core services of the Auditly repository
(`server/services/crawlerService.ts`, `server/services/auditService.ts`,
`server/services/reportService.ts`, and the compiled historical revision
`dist/server/server.js`).

Strings are modelled as Lean `String`s; most string algorithms work on the
underlying `List Char`.  JavaScript `x || y` on strings (empty string falsy)
and on optional values is modelled explicitly.  Network and DOM effects
(axios, cheerio) are modelled as oracle parameters: the functions of the
repository are translated faithfully around those oracles.
-/

namespace Auditly

/-- ASCII lower-casing of one character, as performed by JavaScript
`String.prototype.toLowerCase` on ASCII data (the url-parse library
lower-cases hostnames; the audit service lower-cases status strings). -/
def lowerChar (c : Char) : Char :=
  if 65 ≤ c.toNat ∧ c.toNat ≤ 90 then Char.ofNat (c.toNat + 32) else c

/-- ASCII upper-casing of one character (JavaScript `toUpperCase` on ASCII). -/
def upperChar (c : Char) : Char :=
  if 97 ≤ c.toNat ∧ c.toNat ≤ 122 then Char.ofNat (c.toNat - 32) else c

/-- JavaScript `s.toLowerCase()` on ASCII data. -/
def lowerStr (s : String) : String := ⟨s.data.map lowerChar⟩

/-- JavaScript string truthiness: `undefined`/absent and `''` are falsy. -/
def truthyS : Option String → Bool
  | none => false
  | some s => s ≠ ""

/-- JavaScript `a || b` on two possibly-absent strings. -/
def jsOrS (a b : Option String) : Option String :=
  if truthyS a then a else b

/-- JavaScript `(a || b || c || '')` chain used on status fields. -/
def jsStatusChain (a b c : Option String) : String :=
  (jsOrS a (jsOrS b c)).getD ""

/-- The prefix of `l` strictly before the first occurrence of `c`
(`l.slice(0, l.indexOf(c))`; all of `l` when `c` is absent). -/
def upToChar (c : Char) (l : List Char) : List Char :=
  l.takeWhile (fun x => x ≠ c)

/-- The suffix of `l` from the first occurrence of `c` (inclusive);
empty when `c` is absent. -/
def fromChar (c : Char) (l : List Char) : List Char :=
  l.dropWhile (fun x => x ≠ c)

/-!
## URL parsing (model of the url-parse library as used by the crawler)

`crawlerService.ts` imports `URL from 'url-parse'` and reads `protocol`,
`hostname`, `pathname` and `toString()`.  url-parse chops the hash first,
then the query, then splits host and path at the first `/`, extracts a
trailing `:digits` port from the host (dropping protocol-default ports),
and lower-cases the hostname.  It does not throw on string inputs, so the
`catch` branches of the service are unreachable; the parser below is total
on inputs that carry an `http://`/`https://` scheme and `parseUrl` returns
`none` otherwise (inputs `normalizeUrl` never produces, because it prefixes
`https://` first).  Credentials (`user@host`) and unicode case rules are
not modelled.
-/

/-- Split a url-parse authority into hostname and port: a trailing
`:digits` suffix (digits possibly empty) is the port. -/
def splitPort (a : List Char) : List Char × List Char :=
  let rev := a.reverse
  let ds := rev.takeWhile Char.isDigit
  let rest := rev.dropWhile Char.isDigit
  match rest with
  | ':' :: t => (t.reverse, ds.reverse)
  | _ => (a, [])

/-- A parsed URL: the components of a url-parse `URL` object that
`crawlerService.ts` consumes.  `isHttps` stands for the protocol
(`https:` when true, `http:` when false). -/
structure UrlObj where
  isHttps : Bool
  hostname : List Char
  port : List Char
  pathname : List Char
  query : List Char
  hashFrag : List Char
deriving DecidableEq, Repr

/-- The protocol string (`https:` / `http:`) of a parsed URL. -/
def protoStr (isHttps : Bool) : List Char :=
  if isHttps then "https:".data else "http:".data

/-- url-parse `toString()`: protocol, `//`, hostname, `:port` when a port
is present, pathname, query, hash. -/
def UrlObj.toStr (u : UrlObj) : List Char :=
  protoStr u.isHttps ++ "//".data ++ u.hostname ++
    (if u.port = [] then [] else ':' :: u.port) ++
    u.pathname ++ u.query ++ u.hashFrag

/-- Parse everything after the `http://`/`https://` scheme. -/
def parseRest (isHttps : Bool) (rest : List Char) : UrlObj :=
  let hashFrag := fromChar '#' rest
  let r1 := upToChar '#' rest
  let query := fromChar '?' r1
  let r2 := upToChar '?' r1
  let pathname := fromChar '/' r2
  let authority := upToChar '/' r2
  let hp := splitPort authority
  let port :=
    if (isHttps ∧ hp.2 = "443".data) ∨ (¬isHttps ∧ hp.2 = "80".data) then []
    else hp.2
  { isHttps := isHttps
    hostname := hp.1.map lowerChar
    port := port
    pathname := pathname
    query := query
    hashFrag := hashFrag }

/-- Parse a URL string (as a character list); `none` when it carries
neither scheme. -/
def parseUrl (l : List Char) : Option UrlObj :=
  if "https://".data.isPrefixOf l then some (parseRest true (l.drop 8))
  else if "http://".data.isPrefixOf l then some (parseRest false (l.drop 7))
  else none

/-- The scheme-prefixing step of `normalizeUrl`:
`if (!url.startsWith('http://') && !url.startsWith('https://')) url = 'https://' + url`. -/
def ensureScheme (l : List Char) : List Char :=
  if "http://".data.isPrefixOf l ∨ "https://".data.isPrefixOf l then l
  else "https://".data ++ l

/-- `CrawlerService.normalizeUrl` on character lists: prefix `https://` when
no scheme is present; root paths get exactly `protocol//hostname/`; other
paths ending in `/` lose the final slash (and, as in the source, their
port, query and hash); all other URLs are re-serialised by url-parse. -/
def normalizeUrlL (l : List Char) : List Char :=
  let l1 := ensureScheme l
  match parseUrl l1 with
  | none => l1
  | some u =>
    if u.pathname = ['/'] ∨ u.pathname = [] then
      protoStr u.isHttps ++ "//".data ++ u.hostname ++ ['/']
    else if u.pathname.getLast? = some '/' then
      protoStr u.isHttps ++ "//".data ++ u.hostname ++ u.pathname.dropLast
    else u.toStr

/-- `CrawlerService.normalizeUrl` on strings. -/
def normalizeUrl (s : String) : String := ⟨normalizeUrlL s.data⟩

/-- Well-formedness of a parsed URL: the shape invariants every
`parseRest` output satisfies, used to re-parse serialised URLs. -/
structure UrlWF (u : UrlObj) : Prop where
  host_slash : '/' ∉ u.hostname
  host_query : '?' ∉ u.hostname
  host_hash : '#' ∉ u.hostname
  host_lower : u.hostname.map lowerChar = u.hostname
  port_digit : ∀ c ∈ u.port, c.isDigit = true
  port_default : u.port ≠ [] →
    ¬((u.isHttps ∧ u.port = "443".data) ∨ (¬u.isHttps ∧ u.port = "80".data))
  path_head : u.pathname = [] ∨ u.pathname.head? = some '/'
  path_query : '?' ∉ u.pathname
  path_hash : '#' ∉ u.pathname
  query_head : u.query = [] ∨ u.query.head? = some '?'
  query_hash : '#' ∉ u.query
  hash_head : u.hashFrag = [] ∨ u.hashFrag.head? = some '#' 

/-!
## Crawler (`CrawlerService.crawlWebsite` and helpers)

Network and DOM effects are oracle parameters: `http` models `axios.get`
(`none` = thrown network error, which `fetchPage` catches and converts to
`null`), `titleText`/`h1Text` model the two cheerio text reads of
`fetchPage`, `links` models `extractLinks` (cheerio href extraction plus
`resolveUrl`/`isValidUrl` filtering and deduplication, on which no claim
depends), and `sitemapUrls` models the `getSitemapUrls` result.
-/

/-- The page record built by `fetchPage` (type `PageData` in
`server/types/index.ts`). -/
structure PageData where
  url : String
  title : String
  html : String
  statusCode : Nat
  contentType : String
deriving DecidableEq, Repr

/-- The slice of an axios response that `fetchPage` consumes. -/
structure HttpResp where
  responseUrl : Option String
  body : String
  status : Nat
  contentType : Option String
deriving Repr

/-- Oracles for the crawler's I/O. -/
structure CrawlOracle where
  http : String → Option HttpResp
  titleText : String → String
  h1Text : String → String
  links : String → List String
  sitemapUrls : List String

/-- JavaScript `a || b` on plain strings (empty string falsy). -/
def jsOrStr (a b : String) : String := if a ≠ "" then a else b

/-- JavaScript `hay.includes(pat)` on character lists. -/
def listIncludes (pat : List Char) : List Char → Bool
  | [] => pat.isPrefixOf []
  | c :: t => pat.isPrefixOf (c :: t) || listIncludes pat t

/-- JavaScript `hay.endsWith(pat)` on character lists. -/
def listEndsWith (pat l : List Char) : Bool :=
  pat.reverse.isPrefixOf l.reverse

/-- JavaScript `String.prototype.replace` with a plain (non-global) pattern:
replace the first occurrence of `pat` only. -/
def replaceFirst (pat rep : List Char) : List Char → List Char
  | [] => []
  | c :: t =>
    if pat.isPrefixOf (c :: t) then rep ++ (c :: t).drop pat.length
    else c :: replaceFirst pat rep t

/-- `$('title').text().trim() || $('h1').first().text().trim() || 'Untitled'`. -/
def pageTitle (o : CrawlOracle) (body : String) : String :=
  jsOrStr (o.titleText body) (jsOrStr (o.h1Text body) "Untitled")

/-- `CrawlerService.fetchPage`: GET the URL; on a redirect whose final URL
contains `/en/en/`, retry the corrected single-locale URL and substitute
that response (and its URL) if the retry succeeds; `none` on network error. -/
def fetchPage (o : CrawlOracle) (url : String) : Option PageData :=
  match o.http url with
  | none => none
  | some resp =>
    if truthyS resp.responseUrl ∧ resp.responseUrl.getD "" ≠ url then
      let finalUrl := resp.responseUrl.getD ""
      if listIncludes "/en/en/".data finalUrl.data then
        let corrected : String := ⟨replaceFirst "/en/en/".data "/en/".data finalUrl.data⟩
        match o.http corrected with
        | some r2 =>
          some { url := corrected, title := pageTitle o r2.body, html := r2.body,
                 statusCode := r2.status, contentType := r2.contentType.getD "" }
        | none =>
          some { url := url, title := pageTitle o resp.body, html := resp.body,
                 statusCode := resp.status, contentType := resp.contentType.getD "" }
      else
        some { url := url, title := pageTitle o resp.body, html := resp.body,
               statusCode := resp.status, contentType := resp.contentType.getD "" }
    else
      some { url := url, title := pageTitle o resp.body, html := resp.body,
             statusCode := resp.status, contentType := resp.contentType.getD "" }

/-- `CrawlerService.is404Page`: 404 status, error-marker path segment,
404-ish title, or 404-ish body phrase.  (`new URL(url)` via url-parse never
throws; crawler inputs are normalized and always carry a scheme, so the
`none` parse branch is unreachable there.) -/
def is404Page (url : String) (pd : PageData) : Bool :=
  if pd.statusCode = 404 then true
  else
    let urlPath := (((parseUrl url.data).map UrlObj.pathname).getD []).map lowerChar
    if listIncludes "/not-found".data urlPath ∨ listIncludes "/error".data urlPath ∨
       listIncludes "/page-not-found".data urlPath ∨ listIncludes "/file-not-found".data urlPath then
      true
    else
      let title := pd.title.data.map lowerChar
      if listIncludes "404".data title ∨ listIncludes "not found".data title ∨
         listIncludes "page not found".data title then true
      else
        let body := pd.html.data.map lowerChar
        if listIncludes "404 error".data body ∨ listIncludes "not found".data body ∨
           listIncludes "page not found".data body ∨ listIncludes "file not found".data body then
          true
        else false

/-- `CrawlerService.isExcludedFile`: robots.txt and sitemap XML paths
(lower-cased pathname; the `catch => false` branch corresponds to the
`none` parse case). -/
def isExcludedFile (url : String) : Bool :=
  match parseUrl url.data with
  | none => false
  | some u =>
    let p := u.pathname.map lowerChar
    if p = "/robots.txt".data ∨ listEndsWith "/robots.txt".data p then true
    else if p = "/sitemap.xml".data ∨ listEndsWith "/sitemap.xml".data p then true
    else if listIncludes "/sitemap".data p ∧ listEndsWith ".xml".data p then true
    else false

/-- The mutable state of the `crawlWebsite` while-loop.  `visited` is the
JS `Set` in insertion order; `failedUrls` is not tracked because nothing
the function returns depends on it. -/
structure CrawlState where
  toVisit : List String
  visited : List String
  pages : List PageData
deriving DecidableEq, Repr

/-- One iteration of the `crawlWebsite` while-loop body (the loop runs it
only when `toVisit` is non-empty and `pages.length < maxPages`). -/
def crawlStep (o : CrawlOracle) (maxPages : Nat) (homepageOnly : Bool)
    (s : CrawlState) : CrawlState :=
  match s.toVisit with
  | [] => s
  | currentUrl :: rest =>
    let norm := normalizeUrl currentUrl
    if norm ∈ s.visited then { s with toVisit := rest }
    else
      let visited1 := s.visited ++ [norm]
      match fetchPage o currentUrl with
      | none => { toVisit := rest, visited := visited1, pages := s.pages }
      | some pd =>
        if is404Page currentUrl pd then
          { toVisit := rest, visited := visited1, pages := s.pages }
        else if isExcludedFile currentUrl then
          { toVisit := rest, visited := visited1, pages := s.pages }
        else
          let pages1 := s.pages ++ [pd]
          let toVisit1 :=
            if pages1.length < maxPages ∧ ¬homepageOnly then
              (o.links pd.html).foldl (fun tv link =>
                let nl := normalizeUrl link
                if ¬isExcludedFile nl ∧ nl ∉ visited1 ∧ nl ∉ tv then tv ++ [nl]
                else tv) rest
            else rest
          { toVisit := toVisit1, visited := visited1, pages := pages1 }

set_option linter.unusedVariables false in
/-- The `crawlWebsite` while-loop: iterate `crawlStep` while the frontier
is non-empty and the page budget is not reached.  Termination: every
iteration either appends a page (bounded by `maxPages`) or shortens the
frontier. -/
def crawlLoop (o : CrawlOracle) (maxPages : Nat) (homepageOnly : Bool)
    (s : CrawlState) : CrawlState :=
  if h : s.toVisit ≠ [] ∧ s.pages.length < maxPages then
    crawlLoop o maxPages homepageOnly (crawlStep o maxPages homepageOnly s)
  else s
termination_by (maxPages - s.pages.length, s.toVisit.length)
decreasing_by
  obtain ⟨h1, h2⟩ := h
  obtain ⟨c, rest, hcv⟩ : ∃ c rest, s.toVisit = c :: rest := by
    cases hv : s.toVisit with
    | nil => exact absurd hv h1
    | cons a t => exact ⟨a, t, rfl⟩
  simp only [crawlStep, hcv]
  split
  · exact Prod.Lex.right _ (by simp [hcv])
  · cases fetchPage o c with
    | none => exact Prod.Lex.right _ (by simp [hcv])
    | some pd =>
      simp only
      split
      · exact Prod.Lex.right _ (by simp [hcv])
      · split
        · exact Prod.Lex.right _ (by simp [hcv])
        · exact Prod.Lex.left _ _ (by simp; omega)

/-- Sitemap seeding of the frontier (the `for (const url of sitemapUrls)`
loop; `visited` is still empty at this point, so only the `baseUrl`,
excluded-file and `toVisit.includes` checks can reject). -/
def seedSitemap (baseUrl : String) (sitemapUrls : List String)
    (toVisit : List String) : List String :=
  sitemapUrls.foldl (fun tv url =>
    let n := normalizeUrl url
    if n ≠ baseUrl ∧ ¬isExcludedFile n ∧ n ∉ ([] : List String) ∧ n ∉ tv then
      tv ++ [n]
    else tv) toVisit

/-- `CrawlerService.crawlWebsite`: normalize the seed, seed the frontier
from the sitemap unless `homepageOnly`, re-seed with the base URL if the
frontier is empty (dead branch: the base URL is never removed before the
loop), then run the frontier loop. -/
def crawlWebsite (o : CrawlOracle) (mainUrl : String) (maxPages : Nat)
    (homepageOnly : Bool) : List PageData :=
  let baseUrl := normalizeUrl mainUrl
  let toVisit0 : List String := [baseUrl]
  let toVisit1 := if ¬homepageOnly then seedSitemap baseUrl o.sitemapUrls toVisit0
                  else toVisit0
  let toVisit2 := if toVisit1 = [] then [baseUrl] else toVisit1
  (crawlLoop o maxPages homepageOnly
    { toVisit := toVisit2, visited := [], pages := [] }).pages

/-!
## Audit service (`AuditService` of `server/services/auditService.ts`)

The raw third-party API payload is untyped JSON in the source; the
structures below list exactly the fields the service reads, each optional
where JS would see `undefined`.  The external POST (`axios.post`) is an
oracle `String → Except String RawData`: `.error msg` is a thrown,
classified error message, `.ok data` the decoded 200 payload (the
`data.results || data` unwrap of `processAuditData` is a no-op in the
model: the oracle yields the effective payload).
-/

/-- One DOM node attached to a rule finding. -/
structure RawNode where
  target : Option (List String)
  html : Option String
  failureSummary : Option String
deriving DecidableEq, Repr

/-- The JS value of `item.disabilityTypesAffected`: an array, a plain
string, or absent. -/
inductive DtaVal where
  | arr (l : List String)
  | str (s : String)
  | missing
deriving DecidableEq, Repr

/-- One rule finding as read by the audit service. -/
structure RawItem where
  id : Option String
  actRuleId : Option String
  title : Option String
  description : Option String
  help : Option String
  category : Option String
  tags : Option (List String)
  impact : Option String
  status : Option String
  type : Option String
  result : Option String
  nodes : Option (List RawNode)
  guidelines : Option String
  whyImportant : Option String
  howToFix : Option String
  disabilityTypesAffected : DtaVal
  wcagReferences : Option (List String)
deriving DecidableEq, Repr

/-- The `statistics` block of the API payload. -/
structure RawStats where
  criticalIssues : Option Nat
  seriousIssues : Option Nat
  moderateIssues : Option Nat
deriving DecidableEq, Repr

/-- The API payload as consumed by `processAuditData`. -/
structure RawData where
  violations : Option (List RawItem)
  incomplete : Option (List RawItem)
  passes : Option (List RawItem)
  url : Option String
  statistics : Option RawStats
deriving DecidableEq, Repr

/-- The classifier's output after filtering: `filterExcludedIssues` always
produces plain arrays (so the later `if (data.violations)` truthiness
checks always pass). -/
structure FilteredData where
  violations : List RawItem
  incomplete : List RawItem
  passes : List RawItem
  inapplicable : List RawItem
  url : Option String
deriving DecidableEq, Repr

/-- `AccessibilityIssue` of `server/types/index.ts` (`level` and `impact`
are strings at runtime). -/
structure AccessibilityIssue where
  id : String
  title : String
  description : String
  help : String
  category : String
  level : String
  impact : String
  selector : String
  html : String
  failureSummary : String
  tags : List String
  helpUrl : String
  guidelines : String
  whyImportant : String
  howToFix : String
  disabilityTypesAffected : List String
  wcagReferences : List String
deriving DecidableEq, Repr

/-- Per-page summary counters of an `AuditResult`. -/
structure PageSummary where
  totalIssues : Nat
  errors : Nat
  warnings : Nat
  hints : Nat
  pagesWithIssues : Nat
  criticalIssues : Nat
  seriousIssues : Nat
  moderateIssues : Nat
deriving DecidableEq, Repr

/-- The three severity lanes of an `AuditResult`. -/
structure IssueBuckets where
  errors : List AccessibilityIssue
  warnings : List AccessibilityIssue
  hints : List AccessibilityIssue
deriving DecidableEq, Repr

/-- `AuditResult` of `server/types/index.ts`. -/
structure AuditResultS where
  url : String
  timestamp : String
  summary : PageSummary
  issues : IssueBuckets
  rawData : Option RawData
  error : Option String
deriving DecidableEq, Repr

/-- `const excludedStatuses = ['passed', 'incomplete', 'inapplicable', 'na']`. -/
def excludedStatuses : List String := ["passed", "incomplete", "inapplicable", "na"]

/-- `const excludedTypes = ['passed', 'incomplete', 'inapplicable', 'na']`. -/
def excludedTypes : List String := ["passed", "incomplete", "inapplicable", "na"]

/-- `(item.status || item.type || item.result || '').toLowerCase()`. -/
def itemStatusOf (i : RawItem) : String :=
  lowerStr (jsStatusChain i.status i.type i.result)

/-- `(item.type || item.status || item.result || '').toLowerCase()`. -/
def itemTypeOf (i : RawItem) : String :=
  lowerStr (jsStatusChain i.type i.status i.result)

/-- The filter predicate of `filterExcludedIssues` (identical for the
`violations` and `incomplete` arrays): reject excluded statuses/types,
then require at least one node. -/
def keepItem (i : RawItem) : Bool :=
  if excludedStatuses.contains (itemStatusOf i) ∨ excludedTypes.contains (itemTypeOf i) then
    false
  else
    match i.nodes with
    | some (_ :: _) => true
    | _ => false

/-- `AuditService.filterExcludedIssues` (TypeScript revision): keep only
violation/incomplete items that pass `keepItem`; all passes and
inapplicable items are dropped. -/
def filterExcludedIssues (d : RawData) : FilteredData :=
  { violations := (d.violations.getD []).filter keepItem
    incomplete := (d.incomplete.getD []).filter keepItem
    passes := []
    inapplicable := []
    url := d.url }

/-- `AuditService.getDefaultImpact`. -/
def getDefaultImpact (level : String) : String :=
  if level = "error" then "serious"
  else if level = "warning" then "moderate"
  else if level = "hint" then "minor"
  else "moderate"

/-- Fuel-indexed scan for the `<[^>]*>` global replacement: drop each
leftmost `<`…`>` tag (a `<` with no later `>` matches nothing and is
kept).  Each recursive call strictly shrinks the list, so fuel
`l.length` never runs out. -/
def stripTagsFuel : Nat → List Char → List Char
  | 0, l => l
  | _ + 1, [] => []
  | f + 1, '<' :: t =>
    match fromChar '>' t with
    | '>' :: rest => stripTagsFuel f rest
    | _ => '<' :: stripTagsFuel f t
  | f + 1, c :: t => c :: stripTagsFuel f t

/-- The tag-strip step of `cleanHtml` (`html.replace(/<[^>]*>/g, '')`). -/
def stripTags (l : List Char) : List Char := stripTagsFuel l.length l

/-- JavaScript whitespace trimmed by `String.prototype.trim` (ASCII part). -/
def isJsSpace (c : Char) : Bool := c = ' ' ∨ c = '\t' ∨ c = '\n' ∨ c = '\r'

/-- Trim leading and trailing whitespace. -/
def trimChars (l : List Char) : List Char :=
  ((l.dropWhile isJsSpace).reverse.dropWhile isJsSpace).reverse

/-- `AuditService.cleanHtml`: strip `<...>` tags and trim. -/
def cleanHtml (s : String) : String :=
  if s = "" then "" else ⟨trimChars (stripTags s.data)⟩

/-- `item.category || item.tags?.[0]?.replace('cat.', '') || 'other'`. -/
def categoryOf (item : RawItem) : String :=
  let tagCat : String :=
    match item.tags with
    | some (t :: _) => ⟨replaceFirst "cat.".data [] t.data⟩
    | _ => ""
  jsOrStr (item.category.getD "") (jsOrStr tagCat "other")

/-- A JS template interpolation of a possibly-absent string
(undefined prints as `undefined`). -/
def jsTemplate (o : Option String) : String := o.getD "undefined"

/-- `item.disabilityTypesAffected` coerced to an array. -/
def dtaList : DtaVal → List String
  | .arr l => l
  | .str s => if s ≠ "" then [s] else []
  | .missing => []

/-- The issue built for one node of a finding by `createIssuesFromItem`. -/
def issueOfNode (item : RawItem) (level : String) (node : RawNode) : AccessibilityIssue :=
  { id := jsStatusChain item.id item.actRuleId none
    title := cleanHtml (jsStatusChain item.title item.id none)
    description := item.description.getD ""
    help := item.help.getD ""
    category := categoryOf item
    level := level
    impact := jsOrStr (item.impact.getD "") (getDefaultImpact level)
    selector := (node.target.map (String.intercalate ", ")).getD ""
    html := node.html.getD ""
    failureSummary := node.failureSummary.getD ""
    tags := item.tags.getD []
    helpUrl := "https://accesstive.com/rules/" ++ jsTemplate item.id
    guidelines := item.guidelines.getD ""
    whyImportant := item.whyImportant.getD ""
    howToFix := item.howToFix.getD ""
    disabilityTypesAffected := dtaList item.disabilityTypesAffected
    wcagReferences := item.wcagReferences.getD [] }

/-- The single issue built for a finding without nodes. -/
def issueOfItemNoNode (item : RawItem) (level : String) : AccessibilityIssue :=
  { id := jsStatusChain item.id item.actRuleId none
    title := cleanHtml (jsStatusChain item.title item.id none)
    description := item.description.getD ""
    help := item.help.getD ""
    category := categoryOf item
    level := level
    impact := jsOrStr (item.impact.getD "") (getDefaultImpact level)
    selector := ""
    html := ""
    failureSummary := ""
    tags := item.tags.getD []
    helpUrl := "https://accesstive.com/rules/" ++ jsTemplate item.id
    guidelines := item.guidelines.getD ""
    whyImportant := item.whyImportant.getD ""
    howToFix := item.howToFix.getD ""
    disabilityTypesAffected := dtaList item.disabilityTypesAffected
    wcagReferences := item.wcagReferences.getD [] }

/-- `AuditService.createIssuesFromItem`: one issue per node when
`item.nodes && item.nodes.length > 0`, otherwise a single issue with empty
node-specific fields. -/
def createIssuesFromItem (item : RawItem) (level : String) : List AccessibilityIssue :=
  match item.nodes with
  | some (n :: ns) => (n :: ns).map (issueOfNode item level)
  | _ => [issueOfItemNoNode item level]

/-- The classifier's second stage output. -/
structure ProcessedIssues where
  errors : List AccessibilityIssue
  warnings : List AccessibilityIssue
  hints : List AccessibilityIssue
  totalIssues : Nat
deriving DecidableEq, Repr

/-- `AuditService.transformAndCategorizeIssues` (TypeScript revision):
violations feed the error lane, incomplete the warning lane, passes the
hint lane (the arrays of a `FilteredData` are always truthy in JS). -/
def transformAndCategorizeIssues (d : FilteredData) : ProcessedIssues :=
  let errors := d.violations.foldl (fun acc item => acc ++ createIssuesFromItem item "error") []
  let warnings := d.incomplete.foldl (fun acc item => acc ++ createIssuesFromItem item "warning") []
  let hints := d.passes.foldl (fun acc item => acc ++ createIssuesFromItem item "hint") []
  { errors := errors, warnings := warnings, hints := hints
    totalIssues := errors.length + warnings.length + hints.length }

/-- The classify pipeline of `processAuditData`: filter, then transform
(the spec's `classify(rawPayload)`). -/
def classifyPipeline (d : RawData) : ProcessedIssues :=
  transformAndCategorizeIssues (filterExcludedIssues d)

/-- `AuditService.processAuditData` (timestamp passed as `now`). -/
def processAuditData (now url : String) (data : RawData) : AuditResultS :=
  let processedData := classifyPipeline data
  { url := url
    timestamp := now
    summary :=
      { totalIssues := processedData.totalIssues
        errors := processedData.errors.length
        warnings := processedData.warnings.length
        hints := processedData.hints.length
        pagesWithIssues := if processedData.totalIssues > 0 then 1 else 0
        criticalIssues := (data.statistics.bind RawStats.criticalIssues).getD 0
        seriousIssues := (data.statistics.bind RawStats.seriousIssues).getD 0
        moderateIssues := (data.statistics.bind RawStats.moderateIssues).getD 0 }
    issues :=
      { errors := processedData.errors
        warnings := processedData.warnings
        hints := processedData.hints }
    rawData := some data
    error := none }

/-- The synthetic result appended by the `catch` branch of `auditPages`. -/
def errorAuditResult (now url msg : String) : AuditResultS :=
  { url := url
    timestamp := now
    summary :=
      { totalIssues := 0, errors := 0, warnings := 0, hints := 0
        pagesWithIssues := 0, criticalIssues := 0, seriousIssues := 0, moderateIssues := 0 }
    issues := { errors := [], warnings := [], hints := [] }
    rawData := none
    error := some msg }

/-- `AuditService.auditPages`: sequential loop; a successful
`auditSinglePage` (which never returns `null`: every path returns a result
or throws) appends its result, a thrown error appends the synthetic error
result. -/
def auditPages (api : String → Except String RawData) (now : String)
    (urls : List String) : List AuditResultS :=
  urls.foldl (fun results url =>
    match api url with
    | .ok data => results ++ [processAuditData now url data]
    | .error msg => results ++ [errorAuditResult now url msg]) []

/-!
## The compiled historical revision (`dist/server/server.js`)

`server.js` carries its own copy of the classifier.  Its
`filterExcludedIssues`, `transformAndCategorizeIssues` and
`createIssuesFromItem` are translated separately below (suffix `D`);
the leaf helpers (`cleanHtml`, `getDefaultImpact`, status chains) are
character-for-character the same in both revisions and are shared.
-/

/-- `filterExcludedIssues` of `dist/server/server.js`. -/
def filterExcludedIssuesD (d : RawData) : FilteredData :=
  { violations := (d.violations.getD []).filter keepItem
    incomplete := (d.incomplete.getD []).filter keepItem
    passes := []
    inapplicable := []
    url := d.url }

/-- `createIssuesFromItem` of `dist/server/server.js`. -/
def createIssuesFromItemD (item : RawItem) (level : String) : List AccessibilityIssue :=
  match item.nodes with
  | some (n :: ns) => (n :: ns).map (issueOfNode item level)
  | _ => [issueOfItemNoNode item level]

/-- `transformAndCategorizeIssues` of `dist/server/server.js`. -/
def transformAndCategorizeIssuesD (d : FilteredData) : ProcessedIssues :=
  let errors := d.violations.foldl (fun acc item => acc ++ createIssuesFromItemD item "error") []
  let warnings := d.incomplete.foldl (fun acc item => acc ++ createIssuesFromItemD item "warning") []
  let hints := d.passes.foldl (fun acc item => acc ++ createIssuesFromItemD item "hint") []
  { errors := errors, warnings := warnings, hints := hints
    totalIssues := errors.length + warnings.length + hints.length }

/-- The classify pipeline of the compiled revision's `processAuditData`. -/
def classifyPipelineD (d : RawData) : ProcessedIssues :=
  transformAndCategorizeIssuesD (filterExcludedIssuesD d)

/-!
## Report service (`ReportService` of `server/services/reportService.ts`)

JS objects used as maps (`categoryCounts`, `issueCounts`) are modelled as
association lists in key-insertion order; the JS `Set` of pages is a
duplicate-free list in insertion order.  `Array.prototype.sort` with a
numeric comparator is stable (ES2019); any two stable sorts under the same
total comparator coincide, so it is modelled by a stable insertion sort.
-/

/-- One entry of the summary's category histogram. -/
structure CategorySummary where
  name : String
  count : Nat
  percentage : Nat
deriving DecidableEq, Repr

/-- An aggregated top issue. -/
structure TopIssue where
  id : String
  title : String
  level : String
  category : String
  count : Nat
  pages : List String
  pageCount : Nat
  impact : String
deriving DecidableEq, Repr

/-- The grouping record of `generateTopIssues` before pages are
materialised. -/
structure TopIssueAcc where
  id : String
  title : String
  level : String
  category : String
  count : Nat
  pages : List String
  impact : String
deriving DecidableEq, Repr

/-- `AuditSummary` of `server/types/index.ts`. -/
structure AuditSummaryS where
  totalPages : Nat
  pagesWithIssues : Nat
  totalIssues : Nat
  errors : Nat
  warnings : Nat
  hints : Nat
  categories : List (String × CategorySummary)
  topIssues : List TopIssue
  timestamp : String
deriving DecidableEq, Repr

/-- The display-name map set up in the `ReportService` constructor. -/
def categoryNames : List (String × String) :=
  [("forms", "Forms & Inputs"), ("navigation", "Navigation"),
   ("images", "Images & Media"), ("text", "Text & Typography"),
   ("structure", "Page Structure"), ("interactive", "Interactive Elements"),
   ("other", "Other")]

/-- `ReportService.capitalizeFirst`. -/
def capitalizeFirst (s : String) : String :=
  match s.data with
  | [] => ""
  | c :: t => ⟨upperChar c :: t⟩

/-- `this.categories[category] || this.capitalizeFirst(category)`. -/
def categoryDisplayName (c : String) : String :=
  match categoryNames.find? (fun p => p.1 = c) with
  | some p => p.2
  | none => capitalizeFirst c

/-- `ReportService.isViolationIssue`: `AccessibilityIssue` has no
`status`/`type`/`result` fields, so the status chains read `undefined` and
normalise to `''` (never excluded); what remains is the meaningful-content
check. -/
def isViolationIssue (issue : AccessibilityIssue) : Bool :=
  let issueStatus : String := lowerStr (jsStatusChain none none none)
  let issueType : String := lowerStr (jsStatusChain none none none)
  if excludedStatuses.contains issueStatus ∨ excludedStatuses.contains issueType then false
  else decide (issue.title ≠ "" ∨ issue.description ≠ "" ∨ issue.help ≠ "" ∨ issue.howToFix ≠ "")

/-- `Object.values(result.issues).flat()`: errors, warnings, hints in
declaration order. -/
def flatIssues (b : IssueBuckets) : List AccessibilityIssue :=
  b.errors ++ b.warnings ++ b.hints

/-- `categoryCounts[category] = (categoryCounts[category] || 0) + 1` on an
insertion-ordered association list. -/
def bumpCount (m : List (String × Nat)) (k : String) : List (String × Nat) :=
  if (m.find? (fun p => p.1 = k)).isSome then
    m.map (fun p => if p.1 = k then (p.1, p.2 + 1) else p)
  else m ++ [(k, 1)]

/-- The running accumulator of the `results.forEach` loop in
`generateSummary`.  `allIssues` keeps each surviving issue with its
`pageUrl` (`pageTitle` is also attached in the source but nothing the
function returns reads it). -/
structure SummaryAcc where
  pagesWithIssues : Nat
  totalIssues : Nat
  errors : Nat
  warnings : Nat
  hints : Nat
  allIssues : List (AccessibilityIssue × String)
  categoryCounts : List (String × Nat)
deriving Repr

/-- One `results.forEach` iteration of `generateSummary`: error-flagged
results (JS-truthy `error`) are skipped; otherwise the page counters are
added and each issue passing `isViolationIssue` feeds `allIssues` and the
category histogram (`result.issues` is always present on the typed
record). -/
def summaryStep (acc : SummaryAcc) (r : AuditResultS) : SummaryAcc :=
  if truthyS r.error then acc
  else
    let acc1 : SummaryAcc :=
      { acc with
        pagesWithIssues := acc.pagesWithIssues + (if r.summary.totalIssues > 0 then 1 else 0)
        totalIssues := acc.totalIssues + r.summary.totalIssues
        errors := acc.errors + r.summary.errors
        warnings := acc.warnings + r.summary.warnings
        hints := acc.hints + r.summary.hints }
    (flatIssues r.issues).foldl (fun a issue =>
      if isViolationIssue issue then
        { a with
          allIssues := a.allIssues ++ [(issue, r.url)]
          categoryCounts := bumpCount a.categoryCounts (jsOrStr issue.category "other") }
      else a) acc1

/-- `Math.round(count / total * 100)` for `total > 0`, as exact rational
rounding (half away from zero on non-negative input equals half-up):
`⌊100·count/total + 1/2⌋ = (200·count + total) / (2·total)`. -/
def roundPercent (count total : Nat) : Nat :=
  (200 * count + total) / (2 * total)

/-- `ReportService.generateCategorySummary`: entries in descending count
order (stable), display names resolved, then percentages filled in from
the grand total. -/
def generateCategorySummary (counts : List (String × Nat)) : List (String × CategorySummary) :=
  let sorted := counts.insertionSort (fun a b => b.2 ≤ a.2)
  let entries := sorted.map (fun p =>
    (p.1, { name := categoryDisplayName p.1, count := p.2, percentage := 0 : CategorySummary }))
  let total := counts.foldl (fun s p => s + p.2) 0
  entries.map (fun p =>
    (p.1, { p.2 with percentage := if total > 0 then roundPercent p.2.count total else 0 }))

/-- The grouping key of `generateTopIssues`. -/
def topKey (i : AccessibilityIssue) : String := i.id ++ "-" ++ i.level

/-- JS `Set.prototype.add` on an insertion-ordered duplicate-free list. -/
def addPage (pages : List String) (u : String) : List String :=
  if u ∈ pages then pages else pages ++ [u]

/-- One `allIssues.forEach` iteration of `generateTopIssues`. -/
def topStep (m : List (String × TopIssueAcc)) (p : AccessibilityIssue × String) :
    List (String × TopIssueAcc) :=
  let k := topKey p.1
  let m1 :=
    if (m.find? (fun q => q.1 = k)).isSome then m
    else m ++ [(k, { id := p.1.id, title := p.1.title, level := p.1.level,
                     category := p.1.category, count := 0, pages := [],
                     impact := p.1.impact : TopIssueAcc })]
  m1.map (fun q =>
    if q.1 = k then
      (q.1, { q.2 with count := q.2.count + 1, pages := addPage q.2.pages p.2 })
    else q)

/-- `ReportService.generateTopIssues`: group by `id-level`, then rank by
descending count and keep the top 10. -/
def generateTopIssues (allIssues : List (AccessibilityIssue × String)) : List TopIssue :=
  let m := allIssues.foldl topStep []
  (((m.map (fun q =>
      ({ id := q.2.id, title := q.2.title, level := q.2.level,
         category := q.2.category, count := q.2.count, pages := q.2.pages,
         pageCount := q.2.pages.length, impact := q.2.impact } : TopIssue)))).insertionSort
    (fun a b => b.count ≤ a.count)).take 10

/-- `ReportService.generateSummary` (timestamp passed as `now`). -/
def generateSummary (now : String) (results : List AuditResultS) : AuditSummaryS :=
  let acc := results.foldl summaryStep
    { pagesWithIssues := 0, totalIssues := 0, errors := 0, warnings := 0,
      hints := 0, allIssues := [], categoryCounts := [] }
  { totalPages := results.length
    pagesWithIssues := acc.pagesWithIssues
    totalIssues := acc.totalIssues
    errors := acc.errors
    warnings := acc.warnings
    hints := acc.hints
    categories := generateCategorySummary acc.categoryCounts
    topIssues := generateTopIssues acc.allIssues
    timestamp := now }

/-- Per-page severity counts of the CSV path. -/
structure SeverityCounts where
  critical : Nat
  serious : Nat
  moderate : Nat
deriving DecidableEq, Repr

/-- The per-issue counting step of `calculatePageSeverityCounts`: count by
lower-cased impact (absent/empty impact defaults to `serious` before the
comparison), falling back to the issue's level for unrecognised impacts. -/
def severityStep (sc : SeverityCounts) (issue : AccessibilityIssue) : SeverityCounts :=
  let impact := lowerStr (jsOrStr issue.impact "serious")
  if impact = "critical" then { sc with critical := sc.critical + 1 }
  else if impact = "serious" then { sc with serious := sc.serious + 1 }
  else if impact = "moderate" then { sc with moderate := sc.moderate + 1 }
  else if issue.level = "error" then { sc with serious := sc.serious + 1 }
  else if issue.level = "warning" then { sc with moderate := sc.moderate + 1 }
  else { sc with moderate := sc.moderate + 1 }

/-- `ReportService.calculatePageSeverityCounts` (`result.issues` is always
present on the typed record). -/
def calculatePageSeverityCounts (r : AuditResultS) : SeverityCounts :=
  (flatIssues r.issues).foldl severityStep
    { critical := 0, serious := 0, moderate := 0 }

/-- `ReportService.escapeCsvField` (RFC4180-style quoting). -/
def escapeCsvField (s : String) : String :=
  if s = "" then ""
  else if listIncludes [','] s.data ∨ listIncludes ['"'] s.data ∨
          listIncludes ['\n'] s.data then
    "\"" ++ ⟨s.data.foldr (fun c acc => if c = '"' then '"' :: '"' :: acc else c :: acc) []⟩ ++ "\""
  else s

/-- The data row that `generateCsvReport` builds for one result (the five
cells before they are comma-joined). -/
def csvRow (r : AuditResultS) : List String :=
  if truthyS r.error then
    [escapeCsvField r.url, "ERROR", "ERROR", "ERROR", "0"]
  else
    let severityCounts := calculatePageSeverityCounts r
    let totalIssues := severityCounts.critical + severityCounts.serious + severityCounts.moderate
    let totalScore : Int := max 0 (100 - (totalIssues : Int))
    [escapeCsvField r.url, toString severityCounts.critical,
     toString severityCounts.serious, toString severityCounts.moderate,
     toString totalScore]

/-- `ReportService.generateCsvReport`: header row plus one `csvRow` per
result, comma- and newline-joined. -/
def generateCsvReport (results : List AuditResultS) : String :=
  String.intercalate "\n"
    (String.intercalate ","
        ["Page URL", "Critical Issues", "Serious Issues", "Moderate Issues", "Total Score"] ::
      results.map (fun r => String.intercalate "," (csvRow r)))

/-- Modelled from the claim (C10), per-issue step: severity counts
"obtained by scanning each issue's impact field (an issue with missing or
unrecognized impact is counted as serious when its level is error,
otherwise as moderate)". -/
def claimSeverityStep (sc : SeverityCounts) (issue : AccessibilityIssue) : SeverityCounts :=
  if issue.impact = "critical" then { sc with critical := sc.critical + 1 }
  else if issue.impact = "serious" then { sc with serious := sc.serious + 1 }
  else if issue.impact = "moderate" then { sc with moderate := sc.moderate + 1 }
  else if issue.level = "error" then { sc with serious := sc.serious + 1 }
  else { sc with moderate := sc.moderate + 1 }

/-- Modelled from the claim (C10): the claim's severity counts over a
page's issues. -/
def claimSeverityCounts (r : AuditResultS) : SeverityCounts :=
  (flatIssues r.issues).foldl claimSeverityStep
    { critical := 0, serious := 0, moderate := 0 }

/-- The sum of the three severity buckets. -/
def SeverityCounts.total (sc : SeverityCounts) : Nat :=
  sc.critical + sc.serious + sc.moderate

/-!
## Concrete fixtures used by witnesses and counterexamples
-/

/-- A raw finding with every optional field absent. -/
def blankItem : RawItem :=
  { id := none, actRuleId := none, title := none, description := none,
    help := none, category := none, tags := none, impact := none,
    status := none, type := none, result := none, nodes := none,
    guidelines := none, whyImportant := none, howToFix := none,
    disabilityTypesAffected := .missing, wcagReferences := none }

/-- A DOM node fixture. -/
def nodeA : RawNode :=
  { target := some ["main", "a"], html := some "<a>x</a>", failureSummary := some "fix it" }

/-- An empty API payload fixture. -/
def emptyRawData : RawData :=
  { violations := none, incomplete := none, passes := none, url := none, statistics := none }

/-- C3 fixture: first failed violation (one node). -/
def c3Failed1 : RawItem :=
  { blankItem with id := some "rule1", title := some "Rule <b>one</b>",
                   status := some "failed", nodes := some [nodeA] }

/-- C3 fixture: second failed violation (one node). -/
def c3Failed2 : RawItem :=
  { blankItem with id := some "rule2", status := some "failed", nodes := some [nodeA] }

/-- C3 fixture: a passed violation (one node). -/
def c3Passed : RawItem :=
  { blankItem with id := some "rule3", status := some "passed", nodes := some [nodeA] }

/-- C3 fixture: raw payload with 3 violations, 2 `failed` and 1 `passed`. -/
def c3Data : RawData :=
  { emptyRawData with violations := some [c3Failed1, c3Failed2, c3Passed] }

/-- C5 fixture: first affected node. -/
def c5n1 : RawNode :=
  { target := some ["img.one"], html := some "<img>", failureSummary := some "s1" }

/-- C5 fixture: second affected node. -/
def c5n2 : RawNode :=
  { target := some ["img.two"], html := some "<img>", failureSummary := some "s2" }

/-- C5 fixture: third affected node. -/
def c5n3 : RawNode :=
  { target := some ["img.three"], html := some "<img>", failureSummary := some "s3" }

/-- C5 fixture: a failed violation with three affected nodes. -/
def c5ThreeNodeItem : RawItem :=
  { blankItem with id := some "img-alt", title := some "Images need alt text",
                   status := some "failed",
                   nodes := some [c5n1, c5n2, c5n3] }

/-- C5 fixture: payload with the three-node violation. -/
def c5Data : RawData := { emptyRawData with violations := some [c5ThreeNodeItem] }

/-- C5 fixture: a failed violation with zero nodes. -/
def c5ZeroItem : RawItem :=
  { blankItem with id := some "no-nodes", status := some "failed",
                   nodes := some [] }

/-- C5 fixture: payload whose only violation has zero nodes. -/
def c5ZeroData : RawData := { emptyRawData with violations := some [c5ZeroItem] }

/-- C2 witness oracle: one URL fails, the rest succeed. -/
def apiW : String → Except String RawData := fun u =>
  if u = "https://bad.example" then Except.error "API Error: boom"
  else Except.ok emptyRawData

/-- An issue with every string field empty and every list field empty. -/
def blankIssue : AccessibilityIssue :=
  { id := "", title := "", description := "", help := "", category := "",
    level := "", impact := "", selector := "", html := "", failureSummary := "",
    tags := [], helpUrl := "", guidelines := "", whyImportant := "",
    howToFix := "", disabilityTypesAffected := [], wcagReferences := [] }

/-- C9 fixture: a result whose `error` field is set to the empty string
but whose summary reports issues. -/
def c9BadResult : AuditResultS :=
  { url := "https://x.example", timestamp := "t"
    summary := { totalIssues := 5, errors := 2, warnings := 2, hints := 1,
                 pagesWithIssues := 1, criticalIssues := 0, seriousIssues := 0,
                 moderateIssues := 0 }
    issues := { errors := [], warnings := [], hints := [] }
    rawData := none
    error := some "" }

/-- C10 fixture: a page result with a mix of impact values. -/
def c10Result : AuditResultS :=
  { url := "https://ok.example", timestamp := "t"
    summary := { totalIssues := 4, errors := 2, warnings := 2, hints := 0,
                 pagesWithIssues := 1, criticalIssues := 1, seriousIssues := 1,
                 moderateIssues := 0 }
    issues :=
      { errors := [{ blankIssue with title := "a", level := "error", impact := "critical" },
                   { blankIssue with title := "b", level := "error", impact := "" }]
        warnings := [{ blankIssue with title := "c", level := "warning", impact := "minor" },
                     { blankIssue with title := "d", level := "warning", impact := "moderate" }]
        hints := [] }
    rawData := none
    error := none }

/-- C8 fixture: an issue in a named category. -/
def catIssue (c : String) : AccessibilityIssue :=
  { blankIssue with id := "rule-" ++ c, title := "T", level := "error",
                    impact := "serious", category := c }

/-- C8 fixture: one error-free result with six issues in six distinct
categories. -/
def c8Result : AuditResultS :=
  { url := "https://cats.example", timestamp := "t"
    summary := { totalIssues := 6, errors := 6, warnings := 0, hints := 0,
                 pagesWithIssues := 1, criticalIssues := 0, seriousIssues := 6,
                 moderateIssues := 0 }
    issues :=
      { errors := [catIssue "forms", catIssue "navigation", catIssue "images",
                   catIssue "text", catIssue "structure", catIssue "interactive"]
        warnings := []
        hints := [] }
    rawData := none
    error := none }

/-- C1 fixture: an HTTP oracle where two pages redirect onto the same
`/en/en/`-broken URL, so both fetches substitute the same corrected URL. -/
def c1Http : String → Option HttpResp := fun u =>
  if u = "https://d.example/p1" ∨ u = "https://d.example/p2" then
    some { responseUrl := some "https://d.example/en/en/x", body := "redirected",
           status := 200, contentType := some "text/html" }
  else if u = "https://d.example/" then
    some { responseUrl := none, body := "root", status := 200,
           contentType := some "text/html" }
  else
    some { responseUrl := none, body := "leaf", status := 200,
           contentType := some "text/html" }

/-- C1 fixture: the crawl oracle built on `c1Http`. -/
def c1Oracle : CrawlOracle :=
  { http := c1Http
    titleText := fun _ => "Page"
    h1Text := fun _ => ""
    links := fun html =>
      if html = "root" then ["https://d.example/p1", "https://d.example/p2"] else []
    sitemapUrls := [] }

/-- C1 fixture: the loop state of `crawlWebsite c1Oracle "d.example" 10 false`
as the loop starts. -/
def c1s0 : CrawlState := { toVisit := ["https://d.example/"], visited := [], pages := [] }

/-- C1 fixture: the state after one iteration. -/
def c1s1 : CrawlState := crawlStep c1Oracle 10 false c1s0

/-- C1 fixture: the state after two iterations. -/
def c1s2 : CrawlState := crawlStep c1Oracle 10 false c1s1

/-- C1 fixture: the state after three iterations (the frontier is now
empty). -/
def c1s3 : CrawlState := crawlStep c1Oracle 10 false c1s2

/-!
## Theorems
-/

/-- The fold of `auditPages` is a map over the input URLs. -/
theorem auditPages_eq_map (api : String → Except String RawData) (now : String)
    (urls : List String) :
    auditPages api now urls =
      urls.map (fun url =>
        match api url with
        | .ok data => processAuditData now url data
        | .error msg => errorAuditResult now url msg) := by
  have h : ∀ (l : List String) (acc : List AuditResultS),
      l.foldl (fun results url =>
        match api url with
        | .ok data => results ++ [processAuditData now url data]
        | .error msg => results ++ [errorAuditResult now url msg]) acc
      = acc ++ l.map (fun url =>
        match api url with
        | .ok data => processAuditData now url data
        | .error msg => errorAuditResult now url msg) := by
    intro l
    induction l with
    | nil => intro acc; simp
    | cons u t ih =>
      intro acc
      simp only [List.foldl_cons, List.map_cons]
      cases api u with
      | ok d => rw [ih]; simp
      | error m => rw [ih]; simp
  simpa [auditPages] using h urls []

/-- C2: `auditPages(urls)` returns exactly one `AuditResult` per input URL,
in input order (the i-th result's `url` is the i-th input); when auditing a
URL throws, that position holds a synthetic result with `error` set, all
summary counters zero and all three issue lanes empty. -/
theorem auditPages_length_order_error_shape
    (api : String → Except String RawData) (now : String) (urls : List String) :
    (auditPages api now urls).length = urls.length ∧
    ∀ (i : Nat) (u : String), urls[i]? = some u →
      ∃ r : AuditResultS, (auditPages api now urls)[i]? = some r ∧ r.url = u ∧
        ∀ msg, api u = .error msg →
          r.error = some msg ∧
          r.summary.totalIssues = 0 ∧ r.summary.errors = 0 ∧
          r.summary.warnings = 0 ∧ r.summary.hints = 0 ∧
          r.summary.pagesWithIssues = 0 ∧ r.summary.criticalIssues = 0 ∧
          r.summary.seriousIssues = 0 ∧ r.summary.moderateIssues = 0 ∧
          r.issues.errors = [] ∧ r.issues.warnings = [] ∧ r.issues.hints = [] := by
  rw [auditPages_eq_map]
  refine ⟨by simp, ?_⟩
  intro i u hu
  refine ⟨match api u with
          | .ok data => processAuditData now u data
          | .error msg => errorAuditResult now u msg, ?_, ?_, ?_⟩
  · simp [List.getElem?_map, hu]
  · cases h : api u <;> simp [h, processAuditData, errorAuditResult]
  · intro msg hmsg
    simp [hmsg, errorAuditResult]

/-- C2 witness: a two-URL batch where the second URL's audit throws. -/
theorem auditPages_length_order_error_shape_witness :
    ∃ r : AuditResultS,
      (auditPages apiW "t" ["https://ok.example", "https://bad.example"])[1]? = some r ∧
      r.url = "https://bad.example" ∧
      ∀ msg, apiW "https://bad.example" = .error msg →
        r.error = some msg ∧
        r.summary.totalIssues = 0 ∧ r.summary.errors = 0 ∧
        r.summary.warnings = 0 ∧ r.summary.hints = 0 ∧
        r.summary.pagesWithIssues = 0 ∧ r.summary.criticalIssues = 0 ∧
        r.summary.seriousIssues = 0 ∧ r.summary.moderateIssues = 0 ∧
        r.issues.errors = [] ∧ r.issues.warnings = [] ∧ r.issues.hints = [] :=
  (auditPages_length_order_error_shape apiW "t"
    ["https://ok.example", "https://bad.example"]).2 1 "https://bad.example" (by decide)

/-- The filter predicate of the classifier, characterised. -/
theorem keepItem_iff (i : RawItem) :
    keepItem i = true ↔
      itemStatusOf i ∉ excludedStatuses ∧ itemTypeOf i ∉ excludedTypes ∧
        1 ≤ (i.nodes.getD []).length := by
  have hc1 : excludedStatuses.contains (itemStatusOf i) = true ↔
      itemStatusOf i ∈ excludedStatuses := List.elem_iff
  have hc2 : excludedTypes.contains (itemTypeOf i) = true ↔
      itemTypeOf i ∈ excludedTypes := List.elem_iff
  rcases hn : i.nodes with _ | l
  · simp [keepItem, hn]
  · cases l with
    | nil => simp [keepItem, hn]
    | cons n ns =>
      simp only [keepItem, hn]
      by_cases hs : excludedStatuses.contains (itemStatusOf i) = true ∨
          excludedTypes.contains (itemTypeOf i) = true
      · rw [if_pos hs]
        simp only [hc1, hc2] at hs
        constructor
        · intro h; simp at h
        · rintro ⟨h1, h2, -⟩
          rcases hs with hs | hs
          · exact absurd hs h1
          · exact absurd hs h2
      · rw [if_neg hs]
        push_neg at hs
        constructor
        · intro _
          exact ⟨fun hm => hs.1 (hc1.mpr hm), fun hm => hs.2 (hc2.mpr hm), by simp⟩
        · intro _; rfl

/-- C3: the classifier filter keeps a finding from `violations` or
`incomplete` iff its normalized status and type fields avoid
`{passed, incomplete, inapplicable, na}` and it has at least one DOM
node; and on a payload with 3 violations (2 `failed`, 1 `passed`, each
with a node) the classify pipeline returns exactly 2 errors. -/
theorem filterExcludedIssues_keep_iff_and_example :
    (∀ (d : RawData) (item : RawItem),
      (item ∈ (filterExcludedIssues d).violations ↔
        item ∈ d.violations.getD [] ∧
          itemStatusOf item ∉ excludedStatuses ∧ itemTypeOf item ∉ excludedTypes ∧
          1 ≤ (item.nodes.getD []).length) ∧
      (item ∈ (filterExcludedIssues d).incomplete ↔
        item ∈ d.incomplete.getD [] ∧
          itemStatusOf item ∉ excludedStatuses ∧ itemTypeOf item ∉ excludedTypes ∧
          1 ≤ (item.nodes.getD []).length)) ∧
    (classifyPipeline c3Data).errors.length = 2 := by
  refine ⟨?_, by decide⟩
  intro d item
  constructor
  · simp [filterExcludedIssues, List.mem_filter, keepItem_iff, and_assoc]
  · simp [filterExcludedIssues, List.mem_filter, keepItem_iff, and_assoc]

/-- C6 counterexample to the claimed disagreement: there is no payload on
which the two embedded revisions of the classifier differ in the hints
lane. -/
theorem classifier_revisions_hints_agree :
    ¬ ∃ d : RawData, (classifyPipelineD d).hints ≠ (classifyPipeline d).hints := by
  rintro ⟨d, hd⟩
  exact hd rfl

/-- C6 amended: both historical revisions always produce an empty hints
lane (each `filterExcludedIssues` discards every `passes` entry before the
transform step would map passes into hints), so the two classify functions
are extensionally equal on the hints output. -/
theorem classifier_hints_always_empty :
    ∀ d : RawData,
      (classifyPipelineD d).hints = [] ∧ (classifyPipeline d).hints = [] ∧
      (classifyPipelineD d).hints = (classifyPipeline d).hints := by
  intro d
  exact ⟨rfl, rfl, rfl⟩

/-- C5 amended: at the expansion step, a finding with nodes produces one
issue per node, all sharing the same `id` and `title`; a finding with zero
nodes produces exactly one issue with empty `selector`, `html` and
`failureSummary`.  Through the full classify pipeline the three-node
fixture expands to 3 error issues with equal `id`/`title` and pairwise
distinct selectors, while zero-node findings are removed by the filter and
produce nothing. -/
theorem createIssuesFromItem_expansion :
    (∀ (item : RawItem) (level : String) (n : RawNode) (ns : List RawNode),
      item.nodes = some (n :: ns) →
      (createIssuesFromItem item level).length = ns.length + 1 ∧
      ∀ i1 ∈ createIssuesFromItem item level, ∀ i2 ∈ createIssuesFromItem item level,
        i1.id = i2.id ∧ i1.title = i2.title) ∧
    (∀ (item : RawItem) (level : String),
      item.nodes = none ∨ item.nodes = some [] →
      (createIssuesFromItem item level).length = 1 ∧
      ∀ i ∈ createIssuesFromItem item level,
        i.selector = "" ∧ i.html = "" ∧ i.failureSummary = "") ∧
    ((classifyPipeline c5Data).errors.length = 3 ∧
      (∀ i1 ∈ (classifyPipeline c5Data).errors, ∀ i2 ∈ (classifyPipeline c5Data).errors,
        i1.id = i2.id ∧ i1.title = i2.title) ∧
      ((classifyPipeline c5Data).errors.map AccessibilityIssue.selector).Nodup) ∧
    (∀ (d : RawData) (item : RawItem),
      item.nodes = none ∨ item.nodes = some [] →
      item ∉ (filterExcludedIssues d).violations ∧
        item ∉ (filterExcludedIssues d).incomplete) := by
  refine ⟨?_, ?_, by decide, ?_⟩
  · intro item level n ns hn
    constructor
    · simp [createIssuesFromItem, hn]
    · intro i1 h1 i2 h2
      simp only [createIssuesFromItem, hn, List.mem_map] at h1 h2
      obtain ⟨n1, -, rfl⟩ := h1
      obtain ⟨n2, -, rfl⟩ := h2
      exact ⟨rfl, rfl⟩
  · intro item level hn
    rcases hn with hn | hn <;>
      simp [createIssuesFromItem, hn, issueOfItemNoNode]
  · intro d item hn
    constructor <;>
    · intro hmem
      rw [filterExcludedIssues] at hmem
      simp only [List.mem_filter] at hmem
      have := (keepItem_iff item).mp hmem.2
      rcases hn with hn | hn <;> simp [hn] at this

/-- C5 counterexample to the claim as stated: through the full classify
pipeline (filter then expand), a zero-node `failed` violation yields no
issue at all, not one issue. -/
theorem classifyPipeline_zero_node_dropped :
    c5ZeroItem.nodes = some ([] : List RawNode) ∧
    (classifyPipeline c5ZeroData).errors.length = 0 := by
  decide

/-- C5 witness: the expansion facts instantiated on the three-node fixture
and a zero-node finding. -/
theorem createIssuesFromItem_expansion_witness :
    (createIssuesFromItem c5ThreeNodeItem "error").length = 2 + 1 ∧
    (createIssuesFromItem c5ZeroItem "warning").length = 1 ∧
    c5ZeroItem ∉ (filterExcludedIssues c5ZeroData).violations := by
  refine ⟨?_, ?_, ?_⟩
  · exact (createIssuesFromItem_expansion.1 c5ThreeNodeItem "error" c5n1 [c5n2, c5n3] rfl).1
  · exact (createIssuesFromItem_expansion.2.1 c5ZeroItem "warning" (Or.inr (by decide))).1
  · exact ((createIssuesFromItem_expansion.2.2.2 c5ZeroData c5ZeroItem (Or.inr (by decide))).1)

/-- A foldl preserves any invariant its step preserves. -/
theorem foldl_preserve {A B : Type} (P : A → Prop) (f : A → B → A)
    (hf : ∀ a b, P a → P (f a b)) :
    ∀ (l : List B) (a : A), P a → P (l.foldl f a) := by
  intro l
  induction l with
  | nil => intro a ha; simpa using ha
  | cons b t ih => intro a ha; simpa using ih (f a b) (hf a b ha)

/-- `severityStep` increments exactly one bucket. -/
theorem severityStep_total (sc : SeverityCounts) (issue : AccessibilityIssue) :
    (severityStep sc issue).total = sc.total + 1 := by
  unfold severityStep SeverityCounts.total
  dsimp only
  split_ifs <;> simp <;> omega

/-- The claim's counting step also increments exactly one bucket. -/
theorem claimSeverityStep_total (sc : SeverityCounts) (issue : AccessibilityIssue) :
    (claimSeverityStep sc issue).total = sc.total + 1 := by
  unfold claimSeverityStep SeverityCounts.total
  split_ifs <;> simp <;> omega

/-- Any one-bucket-per-issue fold totals the number of issues. -/
theorem foldl_severity_total (f : SeverityCounts → AccessibilityIssue → SeverityCounts)
    (hf : ∀ sc i, (f sc i).total = sc.total + 1) :
    ∀ (l : List AccessibilityIssue) (sc : SeverityCounts),
      (l.foldl f sc).total = sc.total + l.length := by
  intro l
  induction l with
  | nil => intro sc; simp
  | cons i t ih =>
    intro sc
    simp only [List.foldl_cons, List.length_cons]
    rw [ih (f sc i), hf]
    omega

/-- The code's and the claim's severity counts always have the same total:
both assign every issue to exactly one bucket. -/
theorem severity_totals_agree (r : AuditResultS) :
    (calculatePageSeverityCounts r).total = (claimSeverityCounts r).total := by
  unfold calculatePageSeverityCounts claimSeverityCounts
  rw [foldl_severity_total severityStep severityStep_total,
      foldl_severity_total claimSeverityStep claimSeverityStep_total]

/-- C10: for a result without `error`, the CSV row's Total Score column is
`max(0, 100 − (critical + serious + moderate))` computed from the claim's
impact-scan counts, and this score always lies in `[0, 100]`. -/
theorem csvRow_total_score_formula (r : AuditResultS) (h : r.error = none) :
    (csvRow r)[4]? = some (toString (max 0 (100 - ((claimSeverityCounts r).total : Int)))) ∧
    (0 : Int) ≤ max 0 (100 - ((claimSeverityCounts r).total : Int)) ∧
    max 0 (100 - ((claimSeverityCounts r).total : Int)) ≤ 100 := by
  have htot := severity_totals_agree r
  refine ⟨?_, le_max_left _ _, max_le (by norm_num) (by omega)⟩
  have hthis : (calculatePageSeverityCounts r).critical +
      (calculatePageSeverityCounts r).serious +
      (calculatePageSeverityCounts r).moderate = (claimSeverityCounts r).total := htot
  simp only [csvRow, h, truthyS]
  simp [hthis]

/-- C10 witness: the formula evaluated on a concrete error-free page with
four issues of mixed impacts. -/
theorem csvRow_total_score_formula_witness :
    (csvRow c10Result)[4]? =
      some (toString (max 0 (100 - ((claimSeverityCounts c10Result).total : Int)))) ∧
    (0 : Int) ≤ max 0 (100 - ((claimSeverityCounts c10Result).total : Int)) ∧
    max 0 (100 - ((claimSeverityCounts c10Result).total : Int)) ≤ 100 :=
  csvRow_total_score_formula c10Result rfl

/-- A result with truthy `error` leaves the summary accumulator unchanged. -/
theorem summaryStep_skip (acc : SummaryAcc) (r : AuditResultS)
    (h : truthyS r.error = true) : summaryStep acc r = acc := by
  simp [summaryStep, h]

/-- Folding the summary accumulator ignores results with truthy `error`. -/
theorem foldl_summaryStep_filter :
    ∀ (l : List AuditResultS) (acc : SummaryAcc),
      l.foldl summaryStep acc =
        (l.filter (fun r => !truthyS r.error)).foldl summaryStep acc := by
  intro l
  induction l with
  | nil => intro acc; simp
  | cons r t ih =>
    intro acc
    cases htr : truthyS r.error
    · simp only [List.filter_cons, htr, Bool.not_false, if_pos]
      simp only [List.foldl_cons]
      exact ih (summaryStep acc r)
    · simp only [List.filter_cons, htr, Bool.not_true, if_neg]
      simp only [List.foldl_cons]
      rw [summaryStep_skip acc r htr]
      exact ih acc

/-- C9 amended: `generateSummary` counts every result (error-flagged or
not) in `totalPages`, and results whose `error` is JS-truthy (a non-empty
message) contribute nothing to any other output: every other field equals
the summary of the results with truthy errors filtered out. -/
theorem generateSummary_totalPages_and_error_skip (now : String) (results : List AuditResultS) :
    (generateSummary now results).totalPages = results.length ∧
    ((generateSummary now results).pagesWithIssues =
        (generateSummary now (results.filter (fun r => !truthyS r.error))).pagesWithIssues ∧
      (generateSummary now results).totalIssues =
        (generateSummary now (results.filter (fun r => !truthyS r.error))).totalIssues ∧
      (generateSummary now results).errors =
        (generateSummary now (results.filter (fun r => !truthyS r.error))).errors ∧
      (generateSummary now results).warnings =
        (generateSummary now (results.filter (fun r => !truthyS r.error))).warnings ∧
      (generateSummary now results).hints =
        (generateSummary now (results.filter (fun r => !truthyS r.error))).hints ∧
      (generateSummary now results).categories =
        (generateSummary now (results.filter (fun r => !truthyS r.error))).categories ∧
      (generateSummary now results).topIssues =
        (generateSummary now (results.filter (fun r => !truthyS r.error))).topIssues) := by
  have hacc := foldl_summaryStep_filter results
    { pagesWithIssues := 0, totalIssues := 0, errors := 0, warnings := 0,
      hints := 0, allIssues := [], categoryCounts := [] }
  constructor
  · rfl
  · refine ⟨?_, ?_, ?_, ?_, ?_, ?_, ?_⟩ <;> simp [generateSummary, hacc]

/-- C9 counterexample to the claim as stated: a result whose `error` field
is set (to the empty string) is not skipped — its summary counters flow
into the totals. -/
theorem generateSummary_empty_error_contributes :
    c9BadResult.error = some "" ∧
    (generateSummary "t" [c9BadResult]).totalIssues = 5 ∧
    (generateSummary "t" [c9BadResult]).pagesWithIssues = 1 := by
  decide

/-- `Math.round` bounds: the rounded percentage differs from the floored
percentage by at most one. -/
theorem roundPercent_bounds (c T : Nat) (hT : 0 < T) :
    (100 * c) / T ≤ roundPercent c T ∧ roundPercent c T ≤ (100 * c) / T + 1 := by
  have hdm := Nat.div_add_mod (100 * c) T
  have hmod : (100 * c) % T < T := Nat.mod_lt _ hT
  unfold roundPercent
  constructor
  · rw [Nat.le_div_iff_mul_le (by omega : 0 < 2 * T)]
    have h1 : (100 * c) / T * (2 * T) = 2 * (T * ((100 * c) / T)) := by ring
    rw [h1]
    omega
  · have h2 : (200 * c + T) / (2 * T) < (100 * c) / T + 2 := by
      rw [Nat.div_lt_iff_lt_mul (by omega : 0 < 2 * T)]
      have h3 : ((100 * c) / T + 2) * (2 * T) = 2 * (T * ((100 * c) / T)) + 4 * T := by ring
      rw [h3]
      omega
    omega

/-- The sum of floored percentages times the total is at most `100·Σ`. -/
theorem sum_map_div_mul_le (T : Nat) :
    ∀ cs : List Nat, ((cs.map (fun c => (100 * c) / T)).sum) * T ≤ 100 * cs.sum := by
  intro cs
  induction cs with
  | nil => simp
  | cons c t ih =>
    simp only [List.map_cons, List.sum_cons, add_mul]
    have h1 : (100 * c) / T * T ≤ 100 * c := Nat.div_mul_le_self _ _
    omega

/-- Lower counterpart: `100·Σ` is at most the floored sum times the total
plus one remainder per entry. -/
theorem le_sum_map_div (T : Nat) (hT : 0 < T) :
    ∀ cs : List Nat,
      100 * cs.sum ≤ ((cs.map (fun c => (100 * c) / T)).sum) * T + cs.length * (T - 1) := by
  intro cs
  induction cs with
  | nil => simp
  | cons c t ih =>
    simp only [List.map_cons, List.sum_cons, List.length_cons, add_mul]
    have hdm := Nat.div_add_mod (100 * c) T
    have hmod : (100 * c) % T < T := Nat.mod_lt _ hT
    have hcm : (100 * c) / T * T = T * ((100 * c) / T) := by ring
    omega

/-- Sums of `f · + 1` over a list. -/
theorem sum_map_succ (f : Nat → Nat) :
    ∀ l : List Nat, (l.map (fun c => f c + 1)).sum = (l.map f).sum + l.length := by
  intro l
  induction l with
  | nil => simp
  | cons c t ih => simp [ih]; omega

/-- The rounded category percentages over any positive-total list sum to
100 up to one unit per entry. -/
theorem sum_roundPercent_bounds (cs : List Nat) (hT : 0 < cs.sum) :
    100 ≤ ((cs.map (fun c => roundPercent c cs.sum)).sum) + cs.length ∧
    ((cs.map (fun c => roundPercent c cs.sum)).sum) ≤ 100 + cs.length := by
  have hp_le : ∀ c ∈ cs, roundPercent c cs.sum ≤ (100 * c) / cs.sum + 1 :=
    fun c _ => (roundPercent_bounds c cs.sum hT).2
  have hq_le : ∀ c ∈ cs, (100 * c) / cs.sum ≤ roundPercent c cs.sum :=
    fun c _ => (roundPercent_bounds c cs.sum hT).1
  have hsum_le := List.sum_le_sum hp_le
  have hsum_ge := List.sum_le_sum hq_le
  have hsucc := sum_map_succ (fun c => (100 * c) / cs.sum) cs
  have h1 : ((cs.map (fun c => (100 * c) / cs.sum)).sum) ≤ 100 := by
    have h := sum_map_div_mul_le cs.sum cs
    exact Nat.le_of_mul_le_mul_right h hT
  have h2 : 100 ≤ ((cs.map (fun c => (100 * c) / cs.sum)).sum) + cs.length := by
    have hl := le_sum_map_div cs.sum hT cs
    have h3 : 100 * cs.sum ≤
        (((cs.map (fun c => (100 * c) / cs.sum)).sum) + cs.length) * cs.sum := by
      have h4 : cs.length * (cs.sum - 1) ≤ cs.length * cs.sum :=
        Nat.mul_le_mul_left _ (by omega)
      have h5 : (((cs.map (fun c => (100 * c) / cs.sum)).sum) + cs.length) * cs.sum =
          ((cs.map (fun c => (100 * c) / cs.sum)).sum) * cs.sum + cs.length * cs.sum := by
        ring
      omega
    exact Nat.le_of_mul_le_mul_right h3 hT
  constructor
  · omega
  · omega

/-- `bumpCount` keeps every histogram count at least 1. -/
theorem bumpCount_pos (m : List (String × Nat)) (k : String)
    (hm : ∀ p ∈ m, 1 ≤ p.2) : ∀ p ∈ bumpCount m k, 1 ≤ p.2 := by
  intro p hp
  unfold bumpCount at hp
  split at hp
  · obtain ⟨q, hq, rfl⟩ := List.mem_map.mp hp
    by_cases hqk : q.1 = k
    · simp only [hqk, if_pos rfl]
      exact Nat.le_add_left 1 q.2
    · simp only [if_neg hqk]
      exact hm q hq
  · rcases List.mem_append.mp hp with h | h
    · exact hm p h
    · simp only [List.mem_singleton] at h
      subst h
      exact le_refl 1

/-- Every count in the category histogram accumulated by `generateSummary`
is at least 1. -/
theorem summaryAcc_counts_pos (results : List AuditResultS) :
    ∀ p ∈ (results.foldl summaryStep
        { pagesWithIssues := 0, totalIssues := 0, errors := 0, warnings := 0,
          hints := 0, allIssues := [], categoryCounts := [] }).categoryCounts,
      1 ≤ p.2 := by
  apply foldl_preserve (fun acc : SummaryAcc => ∀ p ∈ acc.categoryCounts, 1 ≤ p.2)
  · intro acc r hacc
    unfold summaryStep
    split
    · exact hacc
    · apply foldl_preserve
        (fun a : SummaryAcc => ∀ p ∈ a.categoryCounts, 1 ≤ p.2)
      · intro a issue ha
        split
        · exact bumpCount_pos _ _ ha
        · exact ha
      · exact hacc
  · intro p hp
    simp at hp

/-- `generateCategorySummary` as a single map over the sorted histogram. -/
theorem generateCategorySummary_eq (counts : List (String × Nat)) :
    generateCategorySummary counts =
      (counts.insertionSort (fun a b => b.2 ≤ a.2)).map (fun p =>
        (p.1, { name := categoryDisplayName p.1, count := p.2,
                percentage :=
                  if counts.foldl (fun s q => s + q.2) 0 > 0 then
                    roundPercent p.2 (counts.foldl (fun s q => s + q.2) 0)
                  else 0 : CategorySummary })) := by
  unfold generateCategorySummary
  rw [List.map_map]
  rfl

/-- The histogram fold total is the sum of the counts. -/
theorem foldl_add_snd (counts : List (String × Nat)) :
    counts.foldl (fun s p => s + p.2) 0 = (counts.map (fun p => p.2)).sum := by
  have h : ∀ (l : List (String × Nat)) (a : Nat),
      l.foldl (fun s p => s + p.2) a = a + (l.map (fun p => p.2)).sum := by
    intro l
    induction l with
    | nil => intro a; simp
    | cons p t ih => intro a; simp [ih]; omega
  simpa using h counts 0

/-- Mapping the percentage out of the shaped category entries. -/
theorem map_percentage_of_shape (sorted : List (String × Nat)) (T : Nat) (hT : 0 < T) :
    ((sorted.map (fun p =>
        (p.1, { name := categoryDisplayName p.1, count := p.2,
                percentage := if T > 0 then roundPercent p.2 T else 0 : CategorySummary }))).map
      (fun x => x.2.percentage)) =
      (sorted.map (fun p => p.2)).map (fun c => roundPercent c T) := by
  rw [List.map_map, List.map_map]
  apply List.map_congr_left
  intro p hp
  simp [Function.comp, if_pos hT]

/-- C8 amended: in every summary, each category's percentage equals
`round(count/totalAcrossCategories·100)`; the percentages sum to 100 only
up to ±(number of categories) — in particular they need not sum to
100 ± 1. -/
theorem categorySummary_percentage_formula_and_bound (now : String)
    (results : List AuditResultS) :
    (∀ e ∈ (generateSummary now results).categories,
      e.2.percentage =
        roundPercent e.2.count
          (((generateSummary now results).categories.map (fun x => x.2.count)).sum)) ∧
    ((generateSummary now results).categories ≠ [] →
      100 ≤ ((generateSummary now results).categories.map (fun x => x.2.percentage)).sum +
          (generateSummary now results).categories.length ∧
      ((generateSummary now results).categories.map (fun x => x.2.percentage)).sum ≤
        100 + (generateSummary now results).categories.length) := by
  have hcat : (generateSummary now results).categories =
      generateCategorySummary ((results.foldl summaryStep
        { pagesWithIssues := 0, totalIssues := 0, errors := 0, warnings := 0,
          hints := 0, allIssues := [], categoryCounts := [] }).categoryCounts) := rfl
  set counts := (results.foldl summaryStep
    { pagesWithIssues := 0, totalIssues := 0, errors := 0, warnings := 0,
      hints := 0, allIssues := [], categoryCounts := [] }).categoryCounts with hcounts
  have hpos : ∀ p ∈ counts, 1 ≤ p.2 := summaryAcc_counts_pos results
  have hperm : List.Perm (counts.insertionSort (fun a b => b.2 ≤ a.2)) counts :=
    List.perm_insertionSort _ counts
  have hpos2 : ∀ p ∈ counts.insertionSort (fun a b => b.2 ≤ a.2), 1 ≤ p.2 :=
    fun p hp => hpos p (hperm.mem_iff.mp hp)
  set sorted := counts.insertionSort (fun a b => b.2 ≤ a.2) with hsorted
  set cs : List Nat := sorted.map (fun p => p.2) with hcs
  have hsum_eq : cs.sum = (counts.map (fun p => p.2)).sum :=
    (hperm.map (fun p => p.2)).sum_eq
  have htotal : counts.foldl (fun s q => s + q.2) 0 = cs.sum := by
    rw [foldl_add_snd, hsum_eq]
  have hshape := generateCategorySummary_eq counts
  rw [htotal] at hshape
  have hcounts_map : (generateSummary now results).categories.map (fun x => x.2.count) = cs := by
    rw [hcat, hshape, List.map_map, hcs]
    rfl
  have hlen : (generateSummary now results).categories.length = cs.length := by
    rw [hcat, hshape, ← hsorted, hcs]
    simp
  constructor
  · intro e he
    rw [hcat, hshape] at he
    obtain ⟨p, hp, rfl⟩ := List.mem_map.mp he
    have hTpos : 0 < cs.sum := by
      have h1 : 1 ≤ p.2 := hpos2 p hp
      have h2 : p.2 ∈ cs := by
        rw [hcs]
        exact List.mem_map.mpr ⟨p, hp, rfl⟩
      have := List.single_le_sum (by intro x hx; omega : ∀ x ∈ cs, 0 ≤ x) _ h2
      omega
    rw [hcounts_map]
    simp only [if_pos hTpos]
  · intro hne
    have hnonempty : cs ≠ [] := by
      intro h
      apply hne
      rw [hcat, hshape, ← hsorted]
      have hs0 : sorted = [] := List.map_eq_nil_iff.mp (by rw [← hcs]; exact h)
      rw [hs0]
      rfl
    have hTpos : 0 < cs.sum := by
      obtain ⟨c, t, hct⟩ := List.exists_cons_of_ne_nil hnonempty
      have hc : c ∈ cs := by rw [hct]; exact List.mem_cons_self _ _
      have h1 : 1 ≤ c := by
        have hc2 : c ∈ List.map (fun p => p.2) sorted := by rw [← hcs]; exact hc
        obtain ⟨p, hp, hpc⟩ := List.mem_map.mp hc2
        have := hpos2 p hp
        omega
      have h2 : c ≤ cs.sum := List.single_le_sum (fun (x : Nat) _ => Nat.zero_le x) c hc
      omega
    have hpmap : (generateSummary now results).categories.map (fun x => x.2.percentage) =
        cs.map (fun c => roundPercent c cs.sum) := by
      rw [hcat, hshape, ← hsorted, map_percentage_of_shape sorted cs.sum hTpos, ← hcs]
    rw [hpmap, hlen]
    exact sum_roundPercent_bounds cs hTpos

/-- C8 counterexample to the ±1 sum: six categories of one issue each give
six 17% entries, summing to 102. -/
theorem categorySummary_percent_sum_102 :
    (generateSummary "t" [c8Result]).totalIssues = 6 ∧
    ((generateSummary "t" [c8Result]).categories.map (fun x => x.2.percentage)).sum = 102 := by
  decide

/-- C8 witness: the bound applied to the six-category fixture. -/
theorem categorySummary_percentage_formula_and_bound_witness :
    100 ≤ ((generateSummary "t" [c8Result]).categories.map (fun x => x.2.percentage)).sum +
        (generateSummary "t" [c8Result]).categories.length ∧
    ((generateSummary "t" [c8Result]).categories.map (fun x => x.2.percentage)).sum ≤
      100 + (generateSummary "t" [c8Result]).categories.length :=
  (categorySummary_percentage_formula_and_bound "t" [c8Result]).2 (by decide)

/-- C4/C1 fixture: an oracle whose root page links to a URL whose
normalized form is itself not normalization-stable. -/
def c4Oracle : CrawlOracle :=
  { http := fun _ => some { responseUrl := none, body := "B", status := 200,
                            contentType := some "text/html" }
    titleText := fun _ => "Welcome"
    h1Text := fun _ => ""
    links := fun _ => ["https://h.example/a///", "https://h.example/a//"]
    sitemapUrls := [] }

/-- C4 fixture: the crawl state of `crawlWebsite c4Oracle "h.example"` as
the loop starts. -/
def c4Init : CrawlState :=
  { toVisit := ["https://h.example/"], visited := [], pages := [] }

/-- C4 fixture: the state two loop iterations later. -/
def c4S2 : CrawlState :=
  crawlStep c4Oracle 10 false (crawlStep c4Oracle 10 false c4Init)

/-- C4 counterexample: two iterations into the crawl of `h.example` with
`c4Oracle`, the frontier still holds `https://h.example/a/` although that
URL is already in the visited set (it entered as the normalized form of
the dequeued `https://h.example/a//`).  The claimed frontier/visited
disjointness fails. -/
theorem crawl_frontier_visited_overlap_example :
    c4Init.toVisit = [normalizeUrl "h.example"] ∧
    "https://h.example/a/" ∈ c4S2.toVisit ∧
    "https://h.example/a/" ∈ c4S2.visited := by
  decide

/-- C4 amended: the frontier never holds the same URL twice — sitemap
seeding and link extraction both check membership before enqueueing — and
every URL in the frontier after a step either was already in the frontier
or is absent from the (new) visited set, i.e. a URL is never enqueued
while visited.  (After a dequeue, the visited set can come to contain a
URL still sitting in the frontier, since the dequeued URL is re-normalized
before being marked visited; such URLs are skipped when dequeued.) -/
theorem crawl_frontier_invariants :
    (∀ (baseUrl : String) (sitemapUrls : List String) (tv : List String),
      tv.Nodup → (seedSitemap baseUrl sitemapUrls tv).Nodup) ∧
    (∀ (o : CrawlOracle) (maxPages : Nat) (homepageOnly : Bool) (s : CrawlState),
      s.toVisit.Nodup →
      ((crawlStep o maxPages homepageOnly s).toVisit.Nodup ∧
       ∀ u ∈ (crawlStep o maxPages homepageOnly s).toVisit,
         u ∈ s.toVisit ∨ u ∉ (crawlStep o maxPages homepageOnly s).visited)) := by
  constructor
  · intro baseUrl sitemapUrls tv htv
    unfold seedSitemap
    apply foldl_preserve (fun tv : List String => tv.Nodup)
    · intro tv2 url h2
      dsimp only
      split
      · rename_i hcond
        simp [List.nodup_append, h2, hcond.2.2.2]
      · exact h2
    · exact htv
  · intro o maxPages homepageOnly s hnd
    rcases hv : s.toVisit with _ | ⟨c, rest⟩
    · have hstep : crawlStep o maxPages homepageOnly s = s := by
        unfold crawlStep
        rw [hv]
      rw [hstep]
      exact ⟨hnd, fun u hu => Or.inl (hv ▸ hu)⟩
    · have hrest : rest.Nodup := by
        rw [hv] at hnd
        exact hnd.of_cons
      have hmem : ∀ u ∈ rest, u ∈ c :: rest :=
        fun u hu => List.mem_cons_of_mem _ hu
      unfold crawlStep
      rw [hv]
      dsimp only
      by_cases hvis : normalizeUrl c ∈ s.visited
      · rw [if_pos hvis]
        exact ⟨hrest, fun u hu => Or.inl (hmem u hu)⟩
      · rw [if_neg hvis]
        rcases hf : fetchPage o c with _ | pd
        · exact ⟨hrest, fun u hu => Or.inl (hmem u hu)⟩
        · dsimp only
          by_cases h404 : is404Page c pd = true
          · rw [if_pos h404]
            exact ⟨hrest, fun u hu => Or.inl (hmem u hu)⟩
          · rw [if_neg h404]
            by_cases hexc : isExcludedFile c = true
            · rw [if_pos hexc]
              exact ⟨hrest, fun u hu => Or.inl (hmem u hu)⟩
            · rw [if_neg hexc]
              by_cases hpush : (s.pages ++ [pd]).length < maxPages ∧ ¬homepageOnly = true
              · rw [if_pos hpush]
                have hfold : ∀ (links : List String) (tv : List String),
                    (tv.Nodup ∧ ∀ u ∈ tv, u ∈ c :: rest ∨
                      u ∉ s.visited ++ [normalizeUrl c]) →
                    ((links.foldl (fun tv link =>
                        let nl := normalizeUrl link
                        if ¬isExcludedFile nl = true ∧ nl ∉ s.visited ++ [normalizeUrl c] ∧
                            nl ∉ tv then tv ++ [nl] else tv) tv).Nodup ∧
                      ∀ u ∈ links.foldl (fun tv link =>
                        let nl := normalizeUrl link
                        if ¬isExcludedFile nl = true ∧ nl ∉ s.visited ++ [normalizeUrl c] ∧
                            nl ∉ tv then tv ++ [nl] else tv) tv,
                        u ∈ c :: rest ∨ u ∉ s.visited ++ [normalizeUrl c]) := by
                  intro links
                  apply foldl_preserve (fun tv : List String =>
                    tv.Nodup ∧ ∀ u ∈ tv, u ∈ c :: rest ∨
                      u ∉ s.visited ++ [normalizeUrl c])
                  intro tv2 link h2
                  dsimp only
                  split
                  · rename_i hcond
                    constructor
                    · simp [List.nodup_append, h2.1, hcond.2.2]
                    · intro u hu
                      rcases List.mem_append.mp hu with hu | hu
                      · exact h2.2 u hu
                      · simp only [List.mem_singleton] at hu
                        subst hu
                        exact Or.inr hcond.2.1
                  · exact h2
                exact hfold (o.links pd.html) rest ⟨hrest, fun u hu => Or.inl (hmem u hu)⟩
              · rw [if_neg hpush]
                exact ⟨hrest, fun u hu => Or.inl (hmem u hu)⟩

/-- C4 witness: the amended invariants applied to concrete inputs. -/
theorem crawl_frontier_invariants_witness :
    (seedSitemap "https://h.example/" ["https://h.example/b", "https://h.example/b/"]
      ["https://h.example/"]).Nodup ∧
    (crawlStep c4Oracle 10 false c4Init).toVisit.Nodup :=
  ⟨crawl_frontier_invariants.1 "https://h.example/"
      ["https://h.example/b", "https://h.example/b/"] ["https://h.example/"] (by decide),
    (crawl_frontier_invariants.2 c4Oracle 10 false c4Init (by decide)).1⟩

/-- One crawl iteration appends at most one page. -/
theorem crawlStep_pages_length_le (o : CrawlOracle) (maxPages : Nat)
    (homepageOnly : Bool) (s : CrawlState) :
    (crawlStep o maxPages homepageOnly s).pages.length ≤ s.pages.length + 1 := by
  unfold crawlStep
  rcases hv : s.toVisit with _ | ⟨c, rest⟩
  · simp
  · dsimp only
    split
    · simp
    · rcases fetchPage o c with _ | pd
      · simp
      · dsimp only
        split
        · simp
        · split
          · simp
          · split <;> simp

/-- One crawl iteration preserves the duplicate-free page list: every
recorded page has its normalized URL in the visited set, and a page is
only recorded after its normalized URL was found absent from the visited
set.  Requires that fetching returns pages under the requested URL. -/
theorem crawlStep_pages_nodup (o : CrawlOracle) (maxPages : Nat) (homepageOnly : Bool)
    (hurl : ∀ u pd, fetchPage o u = some pd → pd.url = u) (s : CrawlState)
    (hP : ((s.pages.map (fun p => p.url)).Nodup ∧
      ∀ pd ∈ s.pages, normalizeUrl pd.url ∈ s.visited)) :
    (((crawlStep o maxPages homepageOnly s).pages.map (fun p => p.url)).Nodup ∧
      ∀ pd ∈ (crawlStep o maxPages homepageOnly s).pages,
        normalizeUrl pd.url ∈ (crawlStep o maxPages homepageOnly s).visited) := by
  obtain ⟨hnd, hvis⟩ := hP
  unfold crawlStep
  rcases hv : s.toVisit with _ | ⟨c, rest⟩
  · exact ⟨hnd, hvis⟩
  · dsimp only
    by_cases hvisc : normalizeUrl c ∈ s.visited
    · rw [if_pos hvisc]
      exact ⟨hnd, hvis⟩
    · rw [if_neg hvisc]
      rcases hf : fetchPage o c with _ | pd
      · exact ⟨hnd, fun q hq => List.mem_append_left _ (hvis q hq)⟩
      · dsimp only
        by_cases h404 : is404Page c pd = true
        · rw [if_pos h404]
          exact ⟨hnd, fun q hq => List.mem_append_left _ (hvis q hq)⟩
        · rw [if_neg h404]
          by_cases hexc : isExcludedFile c = true
          · rw [if_pos hexc]
            exact ⟨hnd, fun q hq => List.mem_append_left _ (hvis q hq)⟩
          · rw [if_neg hexc]
            have hpdurl : pd.url = c := hurl c pd hf
            dsimp only
            constructor
            · have hnotin : pd.url ∉ s.pages.map (fun p => p.url) := by
                intro hmem
                obtain ⟨q, hq, hqurl⟩ := List.mem_map.mp hmem
                have hqvis := hvis q hq
                rw [hqurl, hpdurl] at hqvis
                exact hvisc hqvis
              simp [List.nodup_append, hnd, hnotin]
            · intro q hq
              rcases List.mem_append.mp hq with hq | hq
              · exact List.mem_append_left _ (hvis q hq)
              · simp only [List.mem_singleton] at hq
                subst hq
                rw [hpdurl]
                exact List.mem_append_right _ (List.mem_singleton.mpr rfl)

/-- Invariants that each loop iteration preserves hold of the loop's
result. -/
theorem crawlLoop_inv (o : CrawlOracle) (maxPages : Nat) (homepageOnly : Bool)
    (P : CrawlState → Prop)
    (hstep : ∀ s : CrawlState, s.toVisit ≠ [] → s.pages.length < maxPages →
      P s → P (crawlStep o maxPages homepageOnly s))
    (s : CrawlState) (hs : P s) : P (crawlLoop o maxPages homepageOnly s) :=
  if h : s.toVisit ≠ [] ∧ s.pages.length < maxPages then by
    rw [crawlLoop, dif_pos h]
    exact crawlLoop_inv o maxPages homepageOnly P hstep _ (hstep s h.1 h.2 hs)
  else by
    rw [crawlLoop, dif_neg h]
    exact hs
termination_by (maxPages - s.pages.length, s.toVisit.length)
decreasing_by
  obtain ⟨h1, h2⟩ := h
  obtain ⟨c, rest, hcv⟩ : ∃ c rest, s.toVisit = c :: rest := by
    cases hv : s.toVisit with
    | nil => exact absurd hv h1
    | cons a t => exact ⟨a, t, rfl⟩
  simp only [crawlStep, hcv]
  split
  · exact Prod.Lex.right _ (by simp [hcv])
  · cases fetchPage o c with
    | none => exact Prod.Lex.right _ (by simp [hcv])
    | some pd =>
      simp only
      split
      · exact Prod.Lex.right _ (by simp [hcv])
      · split
        · exact Prod.Lex.right _ (by simp [hcv])
        · exact Prod.Lex.left _ _ (by simp; omega)

/-- C1 amended: every crawl run returns at most `maxPages` pages; and
whenever `fetchPage` performs no URL substitution (no `/en/en/`
locale-correction fired, so each returned page carries the requested URL),
no URL appears twice among the returned pages.  The substitution case can
produce duplicates — see the counterexample. -/
theorem crawlWebsite_budget_and_nodup (o : CrawlOracle) (mainUrl : String)
    (maxPages : Nat) (homepageOnly : Bool) :
    (crawlWebsite o mainUrl maxPages homepageOnly).length ≤ maxPages ∧
    ((∀ u pd, fetchPage o u = some pd → pd.url = u) →
      ((crawlWebsite o mainUrl maxPages homepageOnly).map (fun p => p.url)).Nodup) := by
  unfold crawlWebsite
  dsimp only
  constructor
  · exact crawlLoop_inv o maxPages homepageOnly (fun s => s.pages.length ≤ maxPages)
      (fun s h1 h2 hs => by
        have := crawlStep_pages_length_le o maxPages homepageOnly s
        omega)
      _ (by simp)
  · intro hurl
    refine (crawlLoop_inv o maxPages homepageOnly
      (fun s => (s.pages.map (fun p => p.url)).Nodup ∧
        ∀ pd ∈ s.pages, normalizeUrl pd.url ∈ s.visited)
      (fun s h1 h2 hs => crawlStep_pages_nodup o maxPages homepageOnly hurl s hs)
      _ ?_).1
    simp

/-- C1 witness: budget and duplicate-freedom on a concrete substitution-free
crawl. -/
theorem crawlWebsite_budget_and_nodup_witness :
    (crawlWebsite c4Oracle "h.example" 2 false).length ≤ 2 ∧
    ((crawlWebsite c4Oracle "h.example" 2 false).map (fun p => p.url)).Nodup := by
  refine ⟨(crawlWebsite_budget_and_nodup c4Oracle "h.example" 2 false).1,
    (crawlWebsite_budget_and_nodup c4Oracle "h.example" 2 false).2 ?_⟩
  intro u pd h
  simp only [fetchPage, c4Oracle, truthyS] at h
  simp at h
  rw [← h]

/-- C1 counterexample: with `c1Oracle`, the crawl of `d.example` returns
two pages whose `url` field is the same corrected URL
`https://d.example/en/x` (both `p1` and `p2` redirect onto the broken
`/en/en/x` and the fetcher substitutes the corrected URL for each), so the
returned URL list has a duplicate. -/
theorem crawlWebsite_duplicate_url_example :
    ¬ ((crawlWebsite c1Oracle "d.example" 10 false).map (fun p => p.url)).Nodup := by
  have h0 : crawlWebsite c1Oracle "d.example" 10 false =
      (crawlLoop c1Oracle 10 false c1s0).pages := rfl
  have h1 : crawlLoop c1Oracle 10 false c1s0 = crawlLoop c1Oracle 10 false c1s1 := by
    conv_lhs => rw [crawlLoop]
    rw [dif_pos (show c1s0.toVisit ≠ [] ∧ c1s0.pages.length < 10 by decide)]
    rfl
  have h2 : crawlLoop c1Oracle 10 false c1s1 = crawlLoop c1Oracle 10 false c1s2 := by
    conv_lhs => rw [crawlLoop]
    rw [dif_pos (show c1s1.toVisit ≠ [] ∧ c1s1.pages.length < 10 by decide)]
    rfl
  have h3 : crawlLoop c1Oracle 10 false c1s2 = crawlLoop c1Oracle 10 false c1s3 := by
    conv_lhs => rw [crawlLoop]
    rw [dif_pos (show c1s2.toVisit ≠ [] ∧ c1s2.pages.length < 10 by decide)]
    rfl
  have h4 : crawlLoop c1Oracle 10 false c1s3 = c1s3 := by
    rw [crawlLoop]
    rw [dif_neg (show ¬(c1s3.toVisit ≠ [] ∧ c1s3.pages.length < 10) by decide)]
  rw [h0, h1, h2, h3, h4]
  decide

/-!
## URL normalization: idempotence analysis (C7)
-/

/-- `Char.ofNat` round-trips on valid code points. -/
theorem charOfNat_toNat (n : Nat) (h : Nat.isValidChar n) : (Char.ofNat n).toNat = n := by
  unfold Char.ofNat
  rw [dif_pos h]
  rfl

/-- ASCII lower-casing is idempotent. -/
theorem lowerChar_idem (c : Char) : lowerChar (lowerChar c) = lowerChar c := by
  unfold lowerChar
  by_cases h : 65 ≤ c.toNat ∧ c.toNat ≤ 90
  · rw [if_pos h]
    have hval : (Char.ofNat (c.toNat + 32)).toNat = c.toNat + 32 :=
      charOfNat_toNat _ (Or.inl (by omega))
    rw [if_neg (by omega : ¬(65 ≤ (Char.ofNat (c.toNat + 32)).toNat ∧
      (Char.ofNat (c.toNat + 32)).toNat ≤ 90))]
  · rw [if_neg h, if_neg h]

/-- `lowerChar` only produces characters below code 97 by leaving them
unchanged. -/
theorem lowerChar_eq_low {c d : Char} (hd : d.toNat < 97) (h : lowerChar c = d) : c = d := by
  unfold lowerChar at h
  split at h
  · rename_i hc
    have hval : (Char.ofNat (c.toNat + 32)).toNat = c.toNat + 32 :=
      charOfNat_toNat _ (Or.inl (by omega))
    rw [h] at hval
    omega
  · exact h

/-- Membership transfer out of a lower-cased list for low characters. -/
theorem mem_of_mem_lowerMap {l : List Char} {d : Char} (hd : d.toNat < 97)
    (h : d ∈ l.map lowerChar) : d ∈ l := by
  obtain ⟨y, hy, hyd⟩ := List.mem_map.mp h
  rwa [← lowerChar_eq_low hd hyd]

/-- `upToChar` of a list not containing the delimiter. -/
theorem upToChar_eq_self {c : Char} {l : List Char} (h : c ∉ l) : upToChar c l = l := by
  induction l with
  | nil => rfl
  | cons a t ih =>
    have ha : a ≠ c := fun hac => h (hac ▸ List.mem_cons_self a t)
    simp only [upToChar, List.takeWhile_cons] at ih ⊢
    rw [if_pos (by simpa using ha)]
    rw [ih (fun hc => h (List.mem_cons_of_mem a hc))]

/-- `fromChar` of a list not containing the delimiter. -/
theorem fromChar_eq_nil {c : Char} {l : List Char} (h : c ∉ l) : fromChar c l = [] := by
  induction l with
  | nil => rfl
  | cons a t ih =>
    have ha : a ≠ c := fun hac => h (hac ▸ List.mem_cons_self a t)
    simp only [fromChar, List.dropWhile_cons] at ih ⊢
    rw [if_pos (by simpa using ha)]
    exact ih (fun hc => h (List.mem_cons_of_mem a hc))

/-- `upToChar` skips over a delimiter-free prefix. -/
theorem upToChar_append_left (c : Char) (a b : List Char) (h : c ∉ a) :
    upToChar c (a ++ b) = a ++ upToChar c b := by
  induction a with
  | nil => rfl
  | cons x t ih =>
    have hx : x ≠ c := fun hxc => h (hxc ▸ List.mem_cons_self x t)
    simp only [List.cons_append, upToChar, List.takeWhile_cons]
    rw [if_pos (by simpa using hx)]
    simpa [upToChar] using ih (fun hc => h (List.mem_cons_of_mem x hc))

/-- `fromChar` skips over a delimiter-free prefix. -/
theorem fromChar_append_left (c : Char) (a b : List Char) (h : c ∉ a) :
    fromChar c (a ++ b) = fromChar c b := by
  induction a with
  | nil => rfl
  | cons x t ih =>
    have hx : x ≠ c := fun hxc => h (hxc ▸ List.mem_cons_self x t)
    simp only [List.cons_append, fromChar, List.dropWhile_cons]
    rw [if_pos (by simpa using hx)]
    exact ih (fun hc => h (List.mem_cons_of_mem x hc))

/-- Splitting at a delimiter: the part before and from the first
occurrence, when the prefix is delimiter-free and the tail (if any)
starts with the delimiter. -/
theorem chopAt (c : Char) (a t : List Char) (ha : c ∉ a)
    (ht : t = [] ∨ t.head? = some c) :
    upToChar c (a ++ t) = a ∧ fromChar c (a ++ t) = t := by
  rcases ht with ht | ht
  · subst ht
    rw [List.append_nil]
    exact ⟨upToChar_eq_self ha, fromChar_eq_nil ha⟩
  · rcases t with _ | ⟨x, t2⟩
    · simp at ht
    · simp only [List.head?_cons, Option.some.injEq] at ht
      constructor
      · rw [upToChar_append_left c a _ ha, ht]
        simp [upToChar, List.takeWhile_cons]
      · rw [fromChar_append_left c a _ ha, ht]
        simp [fromChar, List.dropWhile_cons]

/-- `fromChar` returns nothing or a list headed by the delimiter. -/
theorem fromChar_nil_or_head (c : Char) (l : List Char) :
    fromChar c l = [] ∨ (fromChar c l).head? = some c := by
  induction l with
  | nil => exact Or.inl rfl
  | cons a t ih =>
    by_cases hac : a = c
    · right
      subst hac
      simp [fromChar, List.dropWhile_cons]
    · simpa [fromChar, List.dropWhile_cons, hac] using ih

/-- `takeWhile` over a prefix all of whose elements satisfy the
predicate. -/
theorem takeWhile_append_of_all (p : Char → Bool) (a b : List Char)
    (ha : ∀ x ∈ a, p x = true) :
    (a ++ b).takeWhile p = a ++ b.takeWhile p := by
  induction a with
  | nil => rfl
  | cons x t ih =>
    simp only [List.cons_append, List.takeWhile_cons]
    rw [if_pos (ha x (List.mem_cons_self x t))]
    rw [ih (fun y hy => ha y (List.mem_cons_of_mem x hy))]

/-- `dropWhile` over a prefix all of whose elements satisfy the
predicate. -/
theorem dropWhile_append_of_all (p : Char → Bool) (a b : List Char)
    (ha : ∀ x ∈ a, p x = true) :
    (a ++ b).dropWhile p = b.dropWhile p := by
  induction a with
  | nil => rfl
  | cons x t ih =>
    simp only [List.cons_append, List.dropWhile_cons]
    rw [if_pos (ha x (List.mem_cons_self x t))]
    exact ih (fun y hy => ha y (List.mem_cons_of_mem x hy))

/-- `splitPort` splits an authority that ends in an all-digit port. -/
theorem splitPort_append_port (h p : List Char) (hp : ∀ c ∈ p, c.isDigit = true) :
    splitPort (h ++ ':' :: p) = (h, p) := by
  have hrev : (h ++ ':' :: p).reverse = p.reverse ++ ':' :: h.reverse := by
    simp
  have h1 : List.takeWhile Char.isDigit (p.reverse ++ ':' :: h.reverse) = p.reverse := by
    rw [takeWhile_append_of_all _ _ _ (fun x hx => hp x (List.mem_reverse.mp hx))]
    rw [List.takeWhile_cons, if_neg (by decide)]
    simp
  have h2 : List.dropWhile Char.isDigit (p.reverse ++ ':' :: h.reverse) = ':' :: h.reverse := by
    rw [dropWhile_append_of_all _ _ _ (fun x hx => hp x (List.mem_reverse.mp hx))]
    rw [List.dropWhile_cons, if_neg (by decide)]
  simp only [splitPort, hrev, h1, h2, List.reverse_reverse]

/-- The delimiter is absent from the prefix `upToChar` returns. -/
theorem not_mem_upToChar (c : Char) (l : List Char) : c ∉ upToChar c l := by
  intro h
  have := List.mem_takeWhile_imp h
  simp at this

/-- Every character of `splitPort`'s hostname came from the authority. -/
theorem splitPort_fst_mem (a : List Char) : ∀ x ∈ (splitPort a).1, x ∈ a := by
  intro x hx
  unfold splitPort at hx
  dsimp only at hx
  split at hx
  · rename_i t heq
    rw [List.mem_reverse] at hx
    have h1 : x ∈ ':' :: t := List.mem_cons_of_mem _ hx
    rw [← heq] at h1
    have h2 := (List.dropWhile_sublist (l := a.reverse) Char.isDigit).subset h1
    exact List.mem_reverse.mp h2
  · exact hx

/-- Every character of `splitPort`'s port is a digit. -/
theorem splitPort_snd_digit (a : List Char) : ∀ c ∈ (splitPort a).2, c.isDigit = true := by
  intro c hc
  unfold splitPort at hc
  dsimp only at hc
  split at hc
  · rw [List.mem_reverse] at hc
    exact List.mem_takeWhile_imp hc
  · simp at hc

/-- Every `parseRest` output is well-formed. -/
theorem parseRest_wf (b : Bool) (rest : List Char) : UrlWF (parseRest b rest) := by
  unfold parseRest
  dsimp only
  have hr1h : '#' ∉ upToChar '#' rest := not_mem_upToChar _ _
  have hr2q : '?' ∉ upToChar '?' (upToChar '#' rest) := not_mem_upToChar _ _
  have hr2h : '#' ∉ upToChar '?' (upToChar '#' rest) := fun hx =>
    hr1h ((List.takeWhile_sublist _).subset hx)
  have haus : '/' ∉ upToChar '/' (upToChar '?' (upToChar '#' rest)) := not_mem_upToChar _ _
  have hauq : '?' ∉ upToChar '/' (upToChar '?' (upToChar '#' rest)) := fun hx =>
    hr2q ((List.takeWhile_sublist _).subset hx)
  have hauh : '#' ∉ upToChar '/' (upToChar '?' (upToChar '#' rest)) := fun hx =>
    hr2h ((List.takeWhile_sublist _).subset hx)
  have hps := splitPort_fst_mem (upToChar '/' (upToChar '?' (upToChar '#' rest)))
  have hpd := splitPort_snd_digit (upToChar '/' (upToChar '?' (upToChar '#' rest)))
  constructor
  · intro hx
    exact haus (hps _ (mem_of_mem_lowerMap (by decide) hx))
  · intro hx
    exact hauq (hps _ (mem_of_mem_lowerMap (by decide) hx))
  · intro hx
    exact hauh (hps _ (mem_of_mem_lowerMap (by decide) hx))
  · rw [List.map_map]
    exact List.map_congr_left (fun x _ => lowerChar_idem x)
  · split
    · intro c hc
      simp at hc
    · exact fun c hc => hpd c hc
  · split
    · intro hne
      exact absurd rfl hne
    · rename_i hcond
      intro _
      exact hcond
  · exact fromChar_nil_or_head '/' _
  · intro hx
    exact hr2q ((List.dropWhile_sublist _).subset hx)
  · intro hx
    exact hr2h ((List.dropWhile_sublist _).subset hx)
  · exact fromChar_nil_or_head '?' _
  · intro hx
    exact hr1h ((List.dropWhile_sublist _).subset hx)
  · exact fromChar_nil_or_head '#' _

/-- Every successful `parseUrl` output is well-formed. -/
theorem parseUrl_wf {l : List Char} {u : UrlObj} (h : parseUrl l = some u) : UrlWF u := by
  unfold parseUrl at h
  split at h
  · cases h
    exact parseRest_wf _ _
  · split at h
    · cases h
      exact parseRest_wf _ _
    · cases h

/-- A digit character is none of the URL delimiters. -/
theorem isDigit_ne_delims {c : Char} (hc : c.isDigit = true) :
    c ≠ '#' ∧ c ≠ '?' ∧ c ≠ '/' := by
  refine ⟨?_, ?_, ?_⟩ <;> (intro h; subst h; exact absurd hc (by decide))

/-- Parsing the serialised components recovers them. -/
theorem parseRest_reconstruct (b : Bool) (host port pathname query hash : List Char)
    (h_host_slash : '/' ∉ host) (h_host_q : '?' ∉ host) (h_host_h : '#' ∉ host)
    (h_host_low : host.map lowerChar = host)
    (hport_digit : ∀ c ∈ port, c.isDigit = true)
    (hport_nd : port ≠ [] → ¬((b ∧ port = "443".data) ∨ (¬b ∧ port = "80".data)))
    (hport_nil : port = [] → splitPort host = (host, []))
    (hpath : pathname = [] ∨ pathname.head? = some '/')
    (hpath_q : '?' ∉ pathname) (hpath_h : '#' ∉ pathname)
    (hquery : query = [] ∨ query.head? = some '?') (hquery_h : '#' ∉ query)
    (hhash : hash = [] ∨ hash.head? = some '#') :
    parseRest b (host ++ (if port = [] then [] else ':' :: port) ++
        pathname ++ query ++ hash) =
      { isHttps := b, hostname := host, port := port, pathname := pathname,
        query := query, hashFrag := hash } := by
  have hpp_h : '#' ∉ (if port = [] then [] else ':' :: port) := by
    split
    · simp
    · intro hx
      rcases List.mem_cons.mp hx with hx | hx
      · exact absurd hx (by decide)
      · exact absurd (hport_digit _ hx) (by decide)
  have hpp_q : '?' ∉ (if port = [] then [] else ':' :: port) := by
    split
    · simp
    · intro hx
      rcases List.mem_cons.mp hx with hx | hx
      · exact absurd hx (by decide)
      · exact absurd (hport_digit _ hx) (by decide)
  have hpp_s : '/' ∉ (if port = [] then [] else ':' :: port) := by
    split
    · simp
    · intro hx
      rcases List.mem_cons.mp hx with hx | hx
      · exact absurd hx (by decide)
      · exact absurd (hport_digit _ hx) (by decide)
  have hA3_h : '#' ∉ (host ++ (if port = [] then [] else ':' :: port)) ++ pathname := by
    intro hx
    rcases List.mem_append.mp hx with hx | hx
    · rcases List.mem_append.mp hx with hx | hx
      · exact h_host_h hx
      · exact hpp_h hx
    · exact hpath_h hx
  have hA4_h : '#' ∉ ((host ++ (if port = [] then [] else ':' :: port)) ++ pathname) ++ query := by
    intro hx
    rcases List.mem_append.mp hx with hx | hx
    · exact hA3_h hx
    · exact hquery_h hx
  have hA3_q : '?' ∉ (host ++ (if port = [] then [] else ':' :: port)) ++ pathname := by
    intro hx
    rcases List.mem_append.mp hx with hx | hx
    · rcases List.mem_append.mp hx with hx | hx
      · exact h_host_q hx
      · exact hpp_q hx
    · exact hpath_q hx
  have hA2_s : '/' ∉ host ++ (if port = [] then [] else ':' :: port) := by
    intro hx
    rcases List.mem_append.mp hx with hx | hx
    · exact h_host_slash hx
    · exact hpp_s hx
  have e1 := chopAt '#' (((host ++ (if port = [] then [] else ':' :: port)) ++
    pathname) ++ query) hash hA4_h hhash
  have e2 := chopAt '?' ((host ++ (if port = [] then [] else ':' :: port)) ++
    pathname) query hA3_q hquery
  have e3 := chopAt '/' (host ++ (if port = [] then [] else ':' :: port))
    pathname hA2_s hpath
  have e7 : splitPort (host ++ (if port = [] then [] else ':' :: port)) = (host, port) := by
    by_cases hpe : port = []
    · subst hpe
      rw [if_pos rfl, List.append_nil]
      exact hport_nil rfl
    · rw [if_neg hpe]
      exact splitPort_append_port host port hport_digit
  unfold parseRest
  dsimp only
  rw [e1.2, e1.1, e2.2, e2.1, e3.2, e3.1, e7]
  dsimp only
  rw [h_host_low]
  by_cases hpe : port = []
  · subst hpe
    rw [if_neg (by simp : ¬((b ∧ ([] : List Char) = "443".data) ∨
      (¬b ∧ ([] : List Char) = "80".data)))]
  · rw [if_neg (hport_nd hpe)]

/-- The https scheme is a prefix of https URLs. -/
theorem isPrefixOf_append_self (l r : List Char) : l.isPrefixOf (l ++ r) = true := by
  rw [List.isPrefixOf_iff_prefix]
  exact List.prefix_append l r

/-- The https scheme is not a prefix of an http URL. -/
theorem https_not_prefix_http (x : List Char) :
    "https://".data.isPrefixOf ("http://".data ++ x) = false := by
  refine Bool.eq_false_iff.mpr (fun h => ?_)
  rw [List.isPrefixOf_iff_prefix] at h
  obtain ⟨t, ht⟩ := h
  rw [show "https://".data = ['h', 't', 't', 'p', 's', ':', '/', '/'] from rfl,
      show "http://".data = ['h', 't', 't', 'p', ':', '/', '/'] from rfl] at ht
  simp at ht

/-- Re-parsing a serialised well-formed URL whose hostname carries no
trailing port recovers the URL. -/
theorem parseUrl_toStr (u : UrlObj) (hwf : UrlWF u)
    (hport : u.port = [] → splitPort u.hostname = (u.hostname, [])) :
    parseUrl u.toStr = some u := by
  cases hb : u.isHttps
  · have hrecon := parseRest_reconstruct false u.hostname u.port u.pathname u.query
      u.hashFrag hwf.host_slash hwf.host_query hwf.host_hash hwf.host_lower
      hwf.port_digit (fun hne => by have h := hwf.port_default hne; rw [hb] at h; exact h) hport hwf.path_head
      hwf.path_query hwf.path_hash hwf.query_head hwf.query_hash hwf.hash_head
    have htos : u.toStr = "http://".data ++ (u.hostname ++
        (if u.port = [] then [] else ':' :: u.port) ++ u.pathname ++ u.query ++
        u.hashFrag) := by
      unfold UrlObj.toStr protoStr
      rw [hb]
      simp [List.append_assoc]
    unfold parseUrl
    rw [htos, https_not_prefix_http]
    rw [if_neg (by simp)]
    rw [if_pos (isPrefixOf_append_self _ _)]
    rw [show (7 : Nat) = ("http://".data).length from rfl, List.drop_left]
    rw [hrecon, ← hb]
  · have hrecon := parseRest_reconstruct true u.hostname u.port u.pathname u.query
      u.hashFrag hwf.host_slash hwf.host_query hwf.host_hash hwf.host_lower
      hwf.port_digit (fun hne => by have h := hwf.port_default hne; rw [hb] at h; exact h) hport hwf.path_head
      hwf.path_query hwf.path_hash hwf.query_head hwf.query_hash hwf.hash_head
    have htos : u.toStr = "https://".data ++ (u.hostname ++
        (if u.port = [] then [] else ':' :: u.port) ++ u.pathname ++ u.query ++
        u.hashFrag) := by
      unfold UrlObj.toStr protoStr
      rw [hb]
      simp [List.append_assoc]
    unfold parseUrl
    rw [htos]
    rw [if_pos (isPrefixOf_append_self _ _)]
    rw [show (8 : Nat) = ("https://".data).length from rfl, List.drop_left]
    rw [hrecon, ← hb]

/-- A string whose suffix is `pat` ends with `pat`. -/
theorem listEndsWith_append (pat xs : List Char) :
    listEndsWith pat (xs ++ pat) = true := by
  unfold listEndsWith
  rw [List.reverse_append]
  exact isPrefixOf_append_self _ _

/-- The scheme-prefixing step leaves a serialised scheme-and-rest URL
unchanged. -/
theorem ensureScheme_proto (b : Bool) (rest : List Char) :
    ensureScheme (protoStr b ++ "//".data ++ rest) =
      protoStr b ++ "//".data ++ rest := by
  cases b
  · rw [show protoStr false ++ "//".data = "http://".data from by decide]
    unfold ensureScheme
    rw [if_pos (Or.inl (isPrefixOf_append_self _ _))]
  · rw [show protoStr true ++ "//".data = "https://".data from by decide]
    unfold ensureScheme
    rw [if_pos (Or.inr (isPrefixOf_append_self _ _))]

/-- Parsing a serialised scheme-and-rest URL strips the scheme and parses
the rest. -/
theorem parseUrl_proto (b : Bool) (rest : List Char) :
    parseUrl (protoStr b ++ "//".data ++ rest) = some (parseRest b rest) := by
  cases b
  · rw [show protoStr false ++ "//".data = "http://".data from by decide]
    unfold parseUrl
    rw [https_not_prefix_http, if_neg (by simp),
        if_pos (isPrefixOf_append_self _ _),
        show (7 : Nat) = ("http://".data).length from rfl, List.drop_left]
  · rw [show protoStr true ++ "//".data = "https://".data from by decide]
    unfold parseUrl
    rw [if_pos (isPrefixOf_append_self _ _),
        show (8 : Nat) = ("https://".data).length from rfl, List.drop_left]

/-- Re-parsing a bare `host ++ path` (no port, query or hash). -/
theorem parseRest_hostpath (b : Bool) (host path : List Char)
    (h1 : '/' ∉ host) (h2 : '?' ∉ host) (h3 : '#' ∉ host)
    (h4 : host.map lowerChar = host) (h5 : splitPort host = (host, []))
    (h6 : path = [] ∨ path.head? = some '/')
    (h7 : '?' ∉ path) (h8 : '#' ∉ path) :
    parseRest b (host ++ path) =
      { isHttps := b, hostname := host, port := [], pathname := path,
        query := [], hashFrag := [] } := by
  have h := parseRest_reconstruct b host [] path [] [] h1 h2 h3 h4
    (by simp) (fun hne => absurd rfl hne) (fun _ => h5) h6 h7 h8
    (Or.inl rfl) (by simp) (Or.inl rfl)
  simpa using h

/-- Evaluating `normalizeUrlL` once the parse of the scheme-completed input
is known. -/
theorem normalizeUrlL_eq (l : List Char) (u : UrlObj)
    (hu : parseUrl (ensureScheme l) = some u) :
    normalizeUrlL l =
      (if u.pathname = ['/'] ∨ u.pathname = [] then
        protoStr u.isHttps ++ "//".data ++ u.hostname ++ ['/']
      else if u.pathname.getLast? = some '/' then
        protoStr u.isHttps ++ "//".data ++ u.hostname ++ u.pathname.dropLast
      else u.toStr) := by
  unfold normalizeUrlL
  dsimp only
  rw [hu]

/-- A serialised root URL is a fixed point of `normalizeUrlL`. -/
theorem normalizeUrlL_root (b : Bool) (host : List Char)
    (h1 : '/' ∉ host) (h2 : '?' ∉ host) (h3 : '#' ∉ host)
    (h4 : host.map lowerChar = host) (h5 : splitPort host = (host, [])) :
    normalizeUrlL (protoStr b ++ "//".data ++ host ++ ['/']) =
      protoStr b ++ "//".data ++ host ++ ['/'] := by
  have ha : protoStr b ++ "//".data ++ host ++ ['/'] =
      protoStr b ++ "//".data ++ (host ++ ['/']) := by
    rw [List.append_assoc]
  have hu : parseUrl (ensureScheme (protoStr b ++ "//".data ++ (host ++ ['/']))) =
      some { isHttps := b, hostname := host, port := [], pathname := ['/'],
             query := [], hashFrag := [] } := by
    rw [ensureScheme_proto, parseUrl_proto,
        parseRest_hostpath b host ['/'] h1 h2 h3 h4 h5 (Or.inr rfl)
          (by decide) (by decide)]
  rw [ha, normalizeUrlL_eq _ _ hu]
  simp [List.append_assoc]

/-- The scheme-prefixing step leaves a serialised URL object unchanged. -/
theorem ensureScheme_toStr (u : UrlObj) : ensureScheme u.toStr = u.toStr := by
  have h : u.toStr = protoStr u.isHttps ++ "//".data ++ (u.hostname ++
      (if u.port = [] then [] else ':' :: u.port) ++ u.pathname ++ u.query ++
      u.hashFrag) := by
    unfold UrlObj.toStr
    simp [List.append_assoc]
  rw [h, ensureScheme_proto]

/-- C7: normalizeUrl is NOT idempotent for every input (see the
counterexample `https://a.com///`).  It is idempotent on every input whose
scheme-completed form parses to a URL object whose hostname carries no
trailing `:digits` run and whose pathname does not end in `//` (or is
exactly `//`): for such inputs `normalizeUrl (normalizeUrl s) =
normalizeUrl s`. -/
theorem normalizeUrl_idem (s : String) (u : UrlObj)
    (hu : parseUrl (ensureScheme s.data) = some u)
    (hhost : splitPort u.hostname = (u.hostname, []))
    (hpath : listEndsWith "//".data u.pathname = false ∨ u.pathname = ['/', '/']) :
    normalizeUrl (normalizeUrl s) = normalizeUrl s := by
  have hwf := parseUrl_wf hu
  have hmain : normalizeUrlL (normalizeUrlL s.data) = normalizeUrlL s.data := by
    rw [normalizeUrlL_eq s.data u hu]
    by_cases hroot : u.pathname = ['/'] ∨ u.pathname = []
    · rw [if_pos hroot]
      exact normalizeUrlL_root u.isHttps u.hostname hwf.host_slash hwf.host_query
        hwf.host_hash hwf.host_lower hhost
    · rw [if_neg hroot]
      by_cases hsl : u.pathname.getLast? = some '/'
      · rw [if_pos hsl]
        have hne : u.pathname ≠ [] := fun h => hroot (Or.inr h)
        have hhead : u.pathname.head? = some '/' := by
          rcases hwf.path_head with h | h
          · exact absurd h hne
          · exact h
        have hglast : u.pathname.getLast hne = '/' := by
          have h := List.getLast?_eq_getLast u.pathname hne
          rw [h] at hsl
          exact Option.some.inj hsl
        have hq : u.pathname.dropLast ++ ['/'] = u.pathname := by
          have h := List.dropLast_append_getLast hne
          rwa [hglast] at h
        by_cases hpp : u.pathname = ['/', '/']
        · have hd : u.pathname.dropLast = ['/'] := by rw [hpp]; rfl
          rw [hd]
          exact normalizeUrlL_root u.isHttps u.hostname hwf.host_slash
            hwf.host_query hwf.host_hash hwf.host_lower hhost
        · have hB : listEndsWith "//".data u.pathname = false := by
            rcases hpath with h | h
            · exact h
            · exact absurd h hpp
          have hsub : ∀ x ∈ u.pathname.dropLast, x ∈ u.pathname := fun x hx => by
            rw [← hq]
            exact List.mem_append_left _ hx
          have hq7 : '?' ∉ u.pathname.dropLast := fun hx =>
            hwf.path_query (hsub _ hx)
          have hq8 : '#' ∉ u.pathname.dropLast := fun hx =>
            hwf.path_hash (hsub _ hx)
          have hqne : u.pathname.dropLast ≠ [] := by
            intro h
            rw [h, List.nil_append] at hq
            exact hroot (Or.inl hq.symm)
          have hqhead : u.pathname.dropLast.head? = some '/' := by
            cases hq2 : u.pathname.dropLast with
            | nil => exact absurd hq2 hqne
            | cons c t =>
              rw [← hq, hq2] at hhead
              simp only [List.cons_append, List.head?_cons] at hhead
              rw [List.head?_cons, hhead]
          have hqlast : ¬(u.pathname.dropLast.getLast? = some '/') := by
            intro hls
            have hgl : u.pathname.dropLast.getLast hqne = '/' := by
              have h := List.getLast?_eq_getLast u.pathname.dropLast hqne
              rw [h] at hls
              exact Option.some.inj hls
            have h2 := List.dropLast_append_getLast hqne
            rw [hgl] at h2
            have h3 : u.pathname = u.pathname.dropLast.dropLast ++ "//".data := by
              conv_lhs => rw [← hq, ← h2]
              rw [show ("//".data : List Char) = ['/'] ++ ['/'] from rfl,
                  ← List.append_assoc]
            have h4 := listEndsWith_append "//".data u.pathname.dropLast.dropLast
            rw [← h3, hB] at h4
            cases h4
          have hc1 : ¬(u.pathname.dropLast = ['/'] ∨ u.pathname.dropLast = []) := by
            rintro (h | h)
            · exact hqlast (by rw [h]; rfl)
            · exact hqne h
          have hu2 : parseUrl (ensureScheme (protoStr u.isHttps ++ "//".data ++
              (u.hostname ++ u.pathname.dropLast))) =
              some { isHttps := u.isHttps, hostname := u.hostname, port := [],
                     pathname := u.pathname.dropLast, query := [],
                     hashFrag := [] } := by
            rw [ensureScheme_proto, parseUrl_proto,
                parseRest_hostpath u.isHttps u.hostname u.pathname.dropLast
                  hwf.host_slash hwf.host_query hwf.host_hash hwf.host_lower
                  hhost (Or.inr hqhead) hq7 hq8]
          have ha : protoStr u.isHttps ++ "//".data ++ u.hostname ++
              u.pathname.dropLast =
              protoStr u.isHttps ++ "//".data ++
                (u.hostname ++ u.pathname.dropLast) := by
            rw [List.append_assoc]
          rw [ha, normalizeUrlL_eq _ _ hu2]
          dsimp only
          rw [if_neg hc1, if_neg hqlast]
          unfold UrlObj.toStr
          dsimp only
          simp [List.append_assoc]
      · rw [if_neg hsl]
        have hu2 : parseUrl (ensureScheme u.toStr) = some u := by
          rw [ensureScheme_toStr]
          exact parseUrl_toStr u hwf (fun _ => hhost)
        rw [normalizeUrlL_eq u.toStr u hu2, if_neg hroot, if_neg hsl]
  show (⟨normalizeUrlL (normalizeUrlL s.data)⟩ : String) = ⟨normalizeUrlL s.data⟩
  rw [hmain]

/-- Witness for `normalizeUrl_idem`: normalizing `Example.com/About/` twice
gives the same result as normalizing it once. -/
theorem normalizeUrl_idem_witness :
    normalizeUrl (normalizeUrl "Example.com/About/") =
      normalizeUrl "Example.com/About/" :=
  normalizeUrl_idem "Example.com/About/"
    { isHttps := true, hostname := "example.com".data, port := [],
      pathname := "/About/".data, query := [], hashFrag := [] }
    (by decide) (by decide) (Or.inl (by decide))

/-- C7 counterexample: `https://a.com///` normalizes to `https://a.com//`,
which normalizes further to `https://a.com/`, so normalization is not
idempotent. -/
theorem normalizeUrl_not_idempotent :
    normalizeUrl (normalizeUrl "https://a.com///") ≠
      normalizeUrl "https://a.com///" := by
  decide

end Auditly
